import Mathlib

/-!
# Verification of the TOTP engine of `totp-rn-expo-vibe-code`

A shallow embedding, in Lean 4, of the TOTP core of the repository:

* the Base32 secret validation (`TOTPService.validateAndCleanSecret`,
  `TOTPService.validateSecret`) and the `otpauth://` provisioning URI
  codec (`TOTPService.parseOTPAuthURL`, `TOTPService.createOTPAuthURL`)
  are translated directly from
  `src/totp-project/src/services/TOTPService.ts`;
* the code generation and window validation (`TOTPService.generateTOTP`,
  `TOTPService.validateTOTP`) wrap the `@otplib/preset-browser` library,
  whose sources are not part of the repository; the HOTP/TOTP primitive
  (Base32 decoding, HMAC over SHA-1/SHA-256/SHA-512, dynamic truncation,
  time-step counter, window check) is therefore modelled from the
  specification (spec §4.2–§4.3, which follow RFC 4226 / RFC 6238), and
  every theorem about it is a theorem about that model;
* JavaScript primitives used by the service (`String.prototype.split`
  with a limit, `parseInt`, `encodeURIComponent`/`decodeURIComponent`,
  `URL`, `URLSearchParams`) are modelled explicitly; `NaN` results of
  `parseInt` are modelled as `none : Option Int`.

Characters are handled through their code points (`Char.toNat`); the
JavaScript string functions are modelled on ASCII (the only characters
the claims exercise), with Unicode-specific behaviour (multi-byte UTF-8
percent-encoding, non-ASCII case mapping) noted where it is simplified.
-/

namespace TOTP

/-! ## JavaScript string primitives -/

/-- The character class of the JavaScript regexp `\s` (whitespace,
including NBSP and the Unicode space separators), by code point. -/
def isJSSpace (c : Char) : Bool :=
  let n := c.toNat
  n = 32 || n = 9 || n = 10 || n = 11 || n = 12 || n = 13 ||
  n = 160 || n = 0x1680 || (0x2000 ≤ n && n ≤ 0x200a) ||
  n = 0x2028 || n = 0x2029 || n = 0x202f || n = 0x205f ||
  n = 0x3000 || n = 0xfeff

/-- `String.prototype.toUpperCase`, restricted to its ASCII action
(`a`–`z` map to `A`–`Z`; every other code point is kept). -/
def jsToUpperChar (c : Char) : Char :=
  if 97 ≤ c.toNat ∧ c.toNat ≤ 122 then Char.ofNat (c.toNat - 32) else c

/-- `String.prototype.toLowerCase`, restricted to its ASCII action. -/
def jsToLowerChar (c : Char) : Char :=
  if 65 ≤ c.toNat ∧ c.toNat ≤ 90 then Char.ofNat (c.toNat + 32) else c

def jsToUpper (s : String) : String := String.mk (s.data.map jsToUpperChar)

def jsToLower (s : String) : String := String.mk (s.data.map jsToLowerChar)

/-! ## Secret Codec (`TOTPService.validateAndCleanSecret`) -/

/-- A character of the Base32 alphabet `[A-Z2-7]`, by code point. -/
def isB32Char (c : Char) : Bool :=
  (65 ≤ c.toNat && c.toNat ≤ 90) || (50 ≤ c.toNat && c.toNat ≤ 55)

/-- `secret.replace(/\s/g, '').toUpperCase()`: remove every whitespace
character, then uppercase. -/
def cleanSecret (s : String) : String :=
  String.mk ((s.data.filter fun c => !isJSSpace c).map jsToUpperChar)

/-- The test `/^[A-Z2-7]+=*$/.test s`: one or more Base32 characters
followed by zero or more `=`. -/
def b32Regex (l : List Char) : Bool :=
  !(l.takeWhile isB32Char).isEmpty && (l.dropWhile isB32Char).all (· = '=')

/-- `cleaned.replace(/=+$/, '')`: strip the trailing `=` padding. -/
def dropTrailingPad (l : List Char) : List Char :=
  (l.reverse.dropWhile (· = '=')).reverse

/-- `TOTPService.validateAndCleanSecret` (TOTPService.ts:297–319).
`none` models a thrown exception: the input is empty (`!secret`), the
cleaned string fails `/^[A-Z2-7]+=*$/`, or fewer than 8 characters
remain after stripping the trailing `=` padding. -/
def validateAndCleanSecret (secret : String) : Option String :=
  if secret = "" then none
  else
    let cleaned := cleanSecret secret
    if !b32Regex cleaned.data then none
    else if (dropTrailingPad cleaned.data).length < 8 then none
    else some cleaned

/-- `TOTPService.validateSecret` (TOTPService.ts:115–122): true iff
`validateAndCleanSecret` does not throw (the cleaned string a successful
call returns is always nonempty). -/
def validateSecret (secret : String) : Bool :=
  match validateAndCleanSecret secret with
  | some cleaned => cleaned.length > 0
  | none => false

/-! ## Machine words and byte sequences

Bytes are natural numbers below 256; machine words are natural numbers
reduced explicitly modulo `2^32` / `2^64`. -/

def u32 (x : Nat) : Nat := x % 4294967296

def u64 (x : Nat) : Nat := x % 18446744073709551616

def rotl32 (n x : Nat) : Nat := u32 ((x <<< n) ||| (x >>> (32 - n)))

def rotr32 (n x : Nat) : Nat := u32 ((x >>> n) ||| (x <<< (32 - n)))

def rotr64 (n x : Nat) : Nat := u64 ((x >>> n) ||| (x <<< (64 - n)))

/-- The `n`-byte big-endian encoding of `x`. -/
def beBytes : Nat → Nat → List Nat
  | 0, _ => []
  | n + 1, x => beBytes n (x / 256) ++ [x % 256]

/-- The big-endian value of a byte sequence. -/
def beVal (l : List Nat) : Nat := l.foldl (fun a b => a * 256 + b) 0

def packWordsAux (w : Nat) : List Nat → Nat → Nat → List Nat
  | [], acc, k => if 0 < k then [acc] else []
  | b :: bs, acc, k =>
      if k + 1 = w then (acc * 256 + b) :: packWordsAux w bs 0 0
      else packWordsAux w bs (acc * 256 + b) (k + 1)

/-- Group a byte sequence into big-endian words of `w` bytes. -/
def bytesToWords (w : Nat) (bytes : List Nat) : List Nat := packWordsAux w bytes 0 0

def chunksAux (n : Nat) : List Nat → List Nat → List (List Nat)
  | [], acc => if acc.isEmpty then [] else [acc.reverse]
  | x :: xs, acc =>
      if acc.length + 1 = n then (x :: acc).reverse :: chunksAux n xs []
      else chunksAux n xs (x :: acc)

/-- Group a word sequence into blocks of `n` words. -/
def chunks (n : Nat) (l : List Nat) : List (List Nat) := chunksAux n l []

/-- Merkle–Damgård padding: append `0x80`, zero bytes, and the bit length
as a `lenBytes`-byte big-endian number, up to a multiple of `blockBytes`. -/
def shaPad (blockBytes lenBytes : Nat) (msg : List Nat) : List Nat :=
  let zeros := (2 * blockBytes - 1 - lenBytes - msg.length % blockBytes) % blockBytes
  msg ++ 128 :: (List.replicate zeros 0 ++ beBytes lenBytes (8 * msg.length))

/-! ## SHA-1 (FIPS 180-4)

Modelled from the spec: §4.2 delegates the HOTP digest to
`HMAC(algorithm, …)` with `algorithm ∈ {SHA1, SHA256, SHA512}`; the hash
implementations live in the `@otplib/preset-browser` dependency, whose
sources are not part of the repository, so they are reproduced here from
their standard. The schedule accumulators keep the most recent word at
the head, so `w[i-k]` is index `k-1`. -/

def sha1ExtendAux : Nat → List Nat → List Nat
  | 0, acc => acc
  | n + 1, acc =>
      sha1ExtendAux n
        (rotl32 1 (acc.getD 2 0 ^^^ acc.getD 7 0 ^^^ acc.getD 13 0 ^^^ acc.getD 15 0) :: acc)

def sha1Schedule (block : List Nat) : List Nat := (sha1ExtendAux 64 block.reverse).reverse

def sha1F (i b c d : Nat) : Nat :=
  if i < 20 then (b &&& c) ||| ((b ^^^ 4294967295) &&& d)
  else if i < 40 then b ^^^ c ^^^ d
  else if i < 60 then (b &&& c) ||| (b &&& d) ||| (c &&& d)
  else b ^^^ c ^^^ d

def sha1K (i : Nat) : Nat :=
  if i < 20 then 0x5A827999 else if i < 40 then 0x6ED9EBA1
  else if i < 60 then 0x8F1BBCDC else 0xCA62C1D6

def sha1Round (p : Nat × (Nat × Nat × Nat × Nat × Nat)) (w : Nat) :
    Nat × (Nat × Nat × Nat × Nat × Nat) :=
  match p with
  | (i, (a, b, c, d, e)) =>
      (i + 1, (u32 (rotl32 5 a + sha1F i b c d + e + sha1K i + w), a, rotl32 30 b, c, d))

def sha1Compress (h : Nat × Nat × Nat × Nat × Nat) (block : List Nat) :
    Nat × Nat × Nat × Nat × Nat :=
  match h with
  | (h0, h1, h2, h3, h4) =>
      match ((sha1Schedule block).foldl sha1Round (0, (h0, h1, h2, h3, h4))).2 with
      | (a, b, c, d, e) => (u32 (h0 + a), u32 (h1 + b), u32 (h2 + c), u32 (h3 + d), u32 (h4 + e))

def sha1 (msg : List Nat) : List Nat :=
  match (chunks 16 (bytesToWords 4 (shaPad 64 8 msg))).foldl sha1Compress
      (0x67452301, 0xEFCDAB89, 0x98BADCFE, 0x10325476, 0xC3D2E1F0) with
  | (h0, h1, h2, h3, h4) =>
      beBytes 4 h0 ++ beBytes 4 h1 ++ beBytes 4 h2 ++ beBytes 4 h3 ++ beBytes 4 h4

/-! ## SHA-256 (FIPS 180-4) -/

def sha256K : List Nat :=
  [1116352408, 1899447441, 3049323471, 3921009573, 961987163, 1508970993,
    2453635748, 2870763221, 3624381080, 310598401, 607225278, 1426881987,
    1925078388, 2162078206, 2614888103, 3248222580, 3835390401, 4022224774,
    264347078, 604807628, 770255983, 1249150122, 1555081692, 1996064986,
    2554220882, 2821834349, 2952996808, 3210313671, 3336571891, 3584528711,
    113926993, 338241895, 666307205, 773529912, 1294757372, 1396182291,
    1695183700, 1986661051, 2177026350, 2456956037, 2730485921, 2820302411,
    3259730800, 3345764771, 3516065817, 3600352804, 4094571909, 275423344,
    430227734, 506948616, 659060556, 883997877, 958139571, 1322822218,
    1537002063, 1747873779, 1955562222, 2024104815, 2227730452, 2361852424,
    2428436474, 2756734187, 3204031479, 3329325298]

def sha256ExtendAux : Nat → List Nat → List Nat
  | 0, acc => acc
  | n + 1, acc =>
      let w15 := acc.getD 14 0
      let w2 := acc.getD 1 0
      let s0 := rotr32 7 w15 ^^^ rotr32 18 w15 ^^^ (w15 >>> 3)
      let s1 := rotr32 17 w2 ^^^ rotr32 19 w2 ^^^ (w2 >>> 10)
      sha256ExtendAux n (u32 (acc.getD 15 0 + s0 + acc.getD 6 0 + s1) :: acc)

def sha256Schedule (block : List Nat) : List Nat := (sha256ExtendAux 48 block.reverse).reverse

abbrev SHA2State := Nat × Nat × Nat × Nat × Nat × Nat × Nat × Nat

def sha256Round (st : SHA2State) (kw : Nat × Nat) : SHA2State :=
  match st, kw with
  | (a, b, c, d, e, f, g, h), (k, w) =>
      let s1 := rotr32 6 e ^^^ rotr32 11 e ^^^ rotr32 25 e
      let ch := (e &&& f) ^^^ ((e ^^^ 4294967295) &&& g)
      let t1 := h + s1 + ch + k + w
      let s0 := rotr32 2 a ^^^ rotr32 13 a ^^^ rotr32 22 a
      let mj := (a &&& b) ^^^ (a &&& c) ^^^ (b &&& c)
      (u32 (t1 + s0 + mj), a, b, c, u32 (d + t1), e, f, g)

def sha256Compress (h : SHA2State) (block : List Nat) : SHA2State :=
  match h with
  | (h0, h1, h2, h3, h4, h5, h6, h7) =>
      match (List.zip sha256K (sha256Schedule block)).foldl sha256Round
          (h0, h1, h2, h3, h4, h5, h6, h7) with
      | (a, b, c, d, e, f, g, hh) =>
          (u32 (h0 + a), u32 (h1 + b), u32 (h2 + c), u32 (h3 + d),
           u32 (h4 + e), u32 (h5 + f), u32 (h6 + g), u32 (h7 + hh))

def sha256 (msg : List Nat) : List Nat :=
  match (chunks 16 (bytesToWords 4 (shaPad 64 8 msg))).foldl sha256Compress
      (1779033703, 3144134277, 1013904242, 2773480762,
       1359893119, 2600822924, 528734635, 1541459225) with
  | (h0, h1, h2, h3, h4, h5, h6, h7) =>
      beBytes 4 h0 ++ beBytes 4 h1 ++ beBytes 4 h2 ++ beBytes 4 h3 ++
      beBytes 4 h4 ++ beBytes 4 h5 ++ beBytes 4 h6 ++ beBytes 4 h7

/-! ## SHA-512 (FIPS 180-4) -/

def sha512K : List Nat :=
  [4794697086780616226, 8158064640168781261, 13096744586834688815,
    16840607885511220156, 4131703408338449720, 6480981068601479193,
    10538285296894168987, 12329834152419229976, 15566598209576043074,
    1334009975649890238, 2608012711638119052, 6128411473006802146,
    8268148722764581231, 9286055187155687089, 11230858885718282805,
    13951009754708518548, 16472876342353939154, 17275323862435702243,
    1135362057144423861, 2597628984639134821, 3308224258029322869,
    5365058923640841347, 6679025012923562964, 8573033837759648693,
    10970295158949994411, 12119686244451234320, 12683024718118986047,
    13788192230050041572, 14330467153632333762, 15395433587784984357,
    489312712824947311, 1452737877330783856, 2861767655752347644,
    3322285676063803686, 5560940570517711597, 5996557281743188959,
    7280758554555802590, 8532644243296465576, 9350256976987008742,
    10552545826968843579, 11727347734174303076, 12113106623233404929,
    14000437183269869457, 14369950271660146224, 15101387698204529176,
    15463397548674623760, 17586052441742319658, 1182934255886127544,
    1847814050463011016, 2177327727835720531, 2830643537854262169,
    3796741975233480872, 4115178125766777443, 5681478168544905931,
    6601373596472566643, 7507060721942968483, 8399075790359081724,
    8693463985226723168, 9568029438360202098, 10144078919501101548,
    10430055236837252648, 11840083180663258601, 13761210420658862357,
    14299343276471374635, 14566680578165727644, 15097957966210449927,
    16922976911328602910, 17689382322260857208, 500013540394364858,
    748580250866718886, 1242879168328830382, 1977374033974150939,
    2944078676154940804, 3659926193048069267, 4368137639120453308,
    4836135668995329356, 5532061633213252278, 6448918945643986474,
    6902733635092675308, 7801388544844847127]

def sha512ExtendAux : Nat → List Nat → List Nat
  | 0, acc => acc
  | n + 1, acc =>
      let w15 := acc.getD 14 0
      let w2 := acc.getD 1 0
      let s0 := rotr64 1 w15 ^^^ rotr64 8 w15 ^^^ (w15 >>> 7)
      let s1 := rotr64 19 w2 ^^^ rotr64 61 w2 ^^^ (w2 >>> 6)
      sha512ExtendAux n (u64 (acc.getD 15 0 + s0 + acc.getD 6 0 + s1) :: acc)

def sha512Schedule (block : List Nat) : List Nat := (sha512ExtendAux 64 block.reverse).reverse

def sha512Round (st : SHA2State) (kw : Nat × Nat) : SHA2State :=
  match st, kw with
  | (a, b, c, d, e, f, g, h), (k, w) =>
      let s1 := rotr64 14 e ^^^ rotr64 18 e ^^^ rotr64 41 e
      let ch := (e &&& f) ^^^ ((e ^^^ 18446744073709551615) &&& g)
      let t1 := h + s1 + ch + k + w
      let s0 := rotr64 28 a ^^^ rotr64 34 a ^^^ rotr64 39 a
      let mj := (a &&& b) ^^^ (a &&& c) ^^^ (b &&& c)
      (u64 (t1 + s0 + mj), a, b, c, u64 (d + t1), e, f, g)

def sha512Compress (h : SHA2State) (block : List Nat) : SHA2State :=
  match h with
  | (h0, h1, h2, h3, h4, h5, h6, h7) =>
      match (List.zip sha512K (sha512Schedule block)).foldl sha512Round
          (h0, h1, h2, h3, h4, h5, h6, h7) with
      | (a, b, c, d, e, f, g, hh) =>
          (u64 (h0 + a), u64 (h1 + b), u64 (h2 + c), u64 (h3 + d),
           u64 (h4 + e), u64 (h5 + f), u64 (h6 + g), u64 (h7 + hh))

def sha512 (msg : List Nat) : List Nat :=
  match (chunks 16 (bytesToWords 8 (shaPad 128 16 msg))).foldl sha512Compress
      (7640891576956012808, 13503953896175478587, 4354685564936845355,
       11912009170470909681, 5840696475078001361, 11170449401992604703,
       2270897969802886507, 6620516959819538809) with
  | (h0, h1, h2, h3, h4, h5, h6, h7) =>
      beBytes 8 h0 ++ beBytes 8 h1 ++ beBytes 8 h2 ++ beBytes 8 h3 ++
      beBytes 8 h4 ++ beBytes 8 h5 ++ beBytes 8 h6 ++ beBytes 8 h7

/-! ## HMAC and the HOTP primitive -/

/-- Modelled from the spec: `HMAC(algorithm, key, message)` (RFC 2104),
as used by §4.2; keys longer than the block are hashed first, shorter
keys are zero-padded to the block size. -/
def hmac (hash : List Nat → List Nat) (blockSize : Nat) (key msg : List Nat) : List Nat :=
  let k0 := if blockSize < key.length then hash key else key
  let k := k0 ++ List.replicate (blockSize - k0.length) 0
  hash ((k.map (· ^^^ 92)) ++ hash ((k.map (· ^^^ 54)) ++ msg))

/-- The three hash algorithms the service supports (`HashAlgorithms` in
TOTPService.ts). -/
inductive Alg where
  | sha1
  | sha256
  | sha512
deriving DecidableEq

def hmacDigest : Alg → List Nat → List Nat → List Nat
  | .sha1, key, msg => hmac sha1 64 key msg
  | .sha256, key, msg => hmac sha256 64 key msg
  | .sha512, key, msg => hmac sha512 128 key msg

/-- Modelled from the spec: dynamic truncation (§4.2, RFC 4226 §5.3):
`offset = digest[last] & 0x0F`, four bytes from `offset` read big-endian
with the top bit masked off. -/
def dynamicTruncate (digest : List Nat) : Nat :=
  let offset := digest.getLastD 0 &&& 15
  beVal ((digest.drop offset).take 4) &&& 0x7FFFFFFF

/-- Modelled from the spec: format as decimal, zero-padded on the left
to `digits` width (§4.2); the `i`-th character is the `i`-th most
significant decimal digit of `n` in a field of `digits` digits. -/
def formatCode (n digits : Nat) : String :=
  String.mk ((List.range digits).map fun i => Nat.digitChar (n / 10 ^ (digits - 1 - i) % 10))

/-- Modelled from the spec: `computeHOTP(secretBytes, counter, algorithm,
digits)` (§4.2): the truncated HMAC of the 8-byte big-endian counter,
reduced mod `10^digits` and zero-padded. -/
def computeHOTP (alg : Alg) (key : List Nat) (counter digits : Nat) : String :=
  formatCode (dynamicTruncate (hmacDigest alg key (beBytes 8 counter)) % 10 ^ digits) digits

/-! ## Base32 decoding -/

def b32CharVal (c : Char) : Option Nat :=
  if 65 ≤ c.toNat ∧ c.toNat ≤ 90 then some (c.toNat - 65)
  else if 50 ≤ c.toNat ∧ c.toNat ≤ 55 then some (c.toNat - 24)
  else none

def base32DecodeAux : List Char → Nat → Nat → List Nat → Option (List Nat)
  | [], _, _, out => some out.reverse
  | c :: cs, acc, bits, out =>
      if c = '=' then base32DecodeAux cs acc bits out
      else
        match b32CharVal c with
        | none => none
        | some v =>
            let acc2 := acc * 32 + v
            let bits2 := bits + 5
            if 8 ≤ bits2 then
              base32DecodeAux cs (acc2 % 2 ^ (bits2 - 8)) (bits2 - 8)
                ((acc2 >>> (bits2 - 8)) :: out)
            else base32DecodeAux cs acc2 bits2 out

/-- Modelled from the spec: `decodeSecret` maps the cleaned Base32 string
to raw key bytes (§4.1, RFC 4648): five bits per character, `=` padding
skipped, trailing bits that do not fill a byte discarded. -/
def base32Decode (s : String) : Option (List Nat) := base32DecodeAux s.data 0 0 []

/-! ## TOTP generation and validation

`TOTPService.generateTOTP` (TOTPService.ts:53–82) and
`TOTPService.validateTOTP` (TOTPService.ts:87–110) clean the secret,
build the option record with JavaScript `||` defaulting, and delegate to
the `@otplib/preset-browser` library; the delegated computation —
counter `⌊t / period⌋`, HOTP code, and the `[-window, +window]` check —
is modelled from the spec (§4.3). Exceptions are modelled by `Option`;
`t` is the Unix time in seconds. -/

/-- The `TOTPOptions` record of `src/types` as consumed by the service;
absent fields are `none`. -/
structure TOTPOptions where
  algorithm : Option String := none
  digits : Option Nat := none
  period : Option Nat := none
  window : Option Nat := none
deriving DecidableEq

/-- `TOTPService.mapAlgorithm` (TOTPService.ts:357–372): `SHA1`, `SHA256`
and `SHA512` map to the matching digest, everything else (including an
absent value) falls through to SHA-1. -/
def mapAlgorithm : Option String → Alg
  | some "SHA256" => .sha256
  | some "SHA512" => .sha512
  | _ => .sha1

/-- JavaScript `x || dflt` over an optional number: an absent value and
the falsy `0` both give the default. -/
def jsOrNat (x : Option Nat) (dflt : Nat) : Nat :=
  match x with
  | some n => if n = 0 then dflt else n
  | none => dflt

/-- Modelled from the spec: `timeStepCounter(unixSeconds, period) =
floor(unixSeconds / period)` (§4.3). -/
def timeStepCounter (unixSeconds period : Nat) : Nat := unixSeconds / period

/-- `TOTPService.generateTOTP` (TOTPService.ts:53–82): clean the secret
(`none` models the rethrown exception), decode it, and compute the code
of the current time step with `digits = options?.digits || 6` and
`period = options?.period || 30`. -/
def generateTOTP (secret : String) (opts : TOTPOptions) (t : Nat) : Option String :=
  match validateAndCleanSecret secret with
  | none => none
  | some cleaned =>
      match base32Decode cleaned with
      | none => none
      | some key =>
          some (computeHOTP (mapAlgorithm opts.algorithm) key
            (timeStepCounter t (jsOrNat opts.period 30)) (jsOrNat opts.digits 6))

/-- The counters examined by a window check: every counter at distance
at most `w` from `counter` (counters below zero do not exist and are
skipped). Modelled from the spec: §4.3, offsets `[-window, +window]`. -/
def totpCounters (counter w : Nat) : List Nat :=
  (List.range (2 * w + 1)).filterMap fun i =>
    if w ≤ counter + i then some (counter + i - w) else none

/-- The body of `TOTPService.validateTOTP`'s `try` block: `none` models
an exception inside the block (bad secret); otherwise the supplied code
is compared against every counter of the window. -/
def validateTOTPBody (code secret : String) (opts : TOTPOptions) (t : Nat) : Option Bool :=
  match validateAndCleanSecret secret with
  | none => none
  | some cleaned =>
      match base32Decode cleaned with
      | none => none
      | some key =>
          let digits := jsOrNat opts.digits 6
          let period := jsOrNat opts.period 30
          let w := jsOrNat opts.window 1
          let alg := mapAlgorithm opts.algorithm
          some ((totpCounters (timeStepCounter t period) w).any
            fun c => computeHOTP alg key c digits == code)

/-- `TOTPService.validateTOTP` (TOTPService.ts:87–110): the `catch`
turns every exception of the body into the return value `false`. -/
def validateTOTP (code secret : String) (opts : TOTPOptions) (t : Nat) : Bool :=
  (validateTOTPBody code secret opts t).getD false

/-! ## Percent- and form-encoding

Models of `encodeURIComponent` / `decodeURIComponent` and of the
`application/x-www-form-urlencoded` serialization used by
`URLSearchParams`. Percent escapes are decoded byte-for-byte to the
code point of the byte (the claims only exercise ASCII, where this
agrees with the UTF-8 decoding the browser performs); non-ASCII input
characters are percent-encoded through their UTF-8 bytes. -/

def hexVal (c : Char) : Option Nat :=
  if 48 ≤ c.toNat ∧ c.toNat ≤ 57 then some (c.toNat - 48)
  else if 65 ≤ c.toNat ∧ c.toNat ≤ 70 then some (c.toNat - 55)
  else if 97 ≤ c.toNat ∧ c.toNat ≤ 102 then some (c.toNat - 87)
  else none

/-- The uppercase hexadecimal digit of a value below 16. -/
def hexDigit (n : Nat) : Char :=
  Char.ofNat (if n < 10 then 48 + n else 55 + n)

/-- `%XX` escape of one byte. -/
def pctByte (n : Nat) : List Char :=
  ['%', hexDigit (n / 16 % 16), hexDigit (n % 16)]

/-- The UTF-8 bytes of one code point. -/
def utf8Bytes (n : Nat) : List Nat :=
  if n < 128 then [n]
  else if n < 2048 then [192 + n / 64, 128 + n % 64]
  else if n < 65536 then [224 + n / 4096, 128 + n / 64 % 64, 128 + n % 64]
  else [240 + n / 262144, 128 + n / 4096 % 64, 128 + n / 64 % 64, 128 + n % 64]

/-- The characters `encodeURIComponent` leaves unescaped:
`A–Z a–z 0–9 - _ . ! ~ * ' ( )`. -/
def isURIUnreserved (c : Char) : Bool :=
  let n := c.toNat
  (48 ≤ n && n ≤ 57) || (65 ≤ n && n ≤ 90) || (97 ≤ n && n ≤ 122) ||
  n = 45 || n = 95 || n = 46 || n = 33 || n = 126 || n = 42 ||
  n = 39 || n = 40 || n = 41

/-- `encodeURIComponent`, character by character. -/
def encodeURIChar (c : Char) : List Char :=
  if isURIUnreserved c then [c] else (utf8Bytes c.toNat).flatMap pctByte

def encodeURIComponent (s : String) : String :=
  String.mk (s.data.flatMap encodeURIChar)

/-- `decodeURIComponent` on a character list: a malformed escape throws
(`none`); a well-formed escape becomes the code point of its byte. -/
def strictPctDecode : List Char → Option (List Char)
  | [] => some []
  | c :: rest =>
      if c = '%' then
        match rest with
        | a :: b :: rest2 =>
            match hexVal a, hexVal b with
            | some x, some y => (strictPctDecode rest2).map (Char.ofNat (16 * x + y) :: ·)
            | _, _ => none
        | _ => none
      else (strictPctDecode rest).map (c :: ·)

def decodeURIComponent (s : String) : Option String :=
  (strictPctDecode s.data).map String.mk

/-- The characters `URLSearchParams` serialization leaves unescaped:
`A–Z a–z 0–9 * - . _` (space becomes `+`). -/
def isFormSafe (c : Char) : Bool :=
  let n := c.toNat
  (48 ≤ n && n ≤ 57) || (65 ≤ n && n ≤ 90) || (97 ≤ n && n ≤ 122) ||
  n = 42 || n = 45 || n = 46 || n = 95

def formEncodeChar (c : Char) : List Char :=
  if isFormSafe c then [c]
  else if c = ' ' then ['+']
  else (utf8Bytes c.toNat).flatMap pctByte

def formEncode (s : String) : String :=
  String.mk (s.data.flatMap formEncodeChar)

/-- Form decoding is lenient: `+` becomes a space and a malformed `%`
escape stays as written. -/
def lenientPctDecode : List Char → List Char
  | [] => []
  | '%' :: a :: b :: rest =>
      match hexVal a, hexVal b with
      | some x, some y => Char.ofNat (16 * x + y) :: lenientPctDecode rest
      | _, _ => '%' :: lenientPctDecode (a :: b :: rest)
  | '%' :: rest => '%' :: lenientPctDecode rest
  | c :: rest => c :: lenientPctDecode rest

def formDecode (s : String) : String :=
  String.mk (lenientPctDecode (s.data.map fun c => if c = '+' then ' ' else c))

/-! ## A model of the WHATWG `URL` parser

`parseOTPAuthURL` reads `protocol`, `hostname`, `pathname` and
`searchParams` of `new URL(url)`. The model below covers URLs of the
shape `scheme:…` / `scheme://host[:port]/path[?query][#fragment]` with
an opaque (non-special-scheme) host and no userinfo — the shapes the
`otpauth` scheme produces; `none` models a thrown `TypeError`. -/

/-- Split a character list at the first occurrence of `sep`:
`(before, some after)`, or `(l, none)` when `sep` does not occur. -/
def splitFirstAux (sep : Char) : List Char → List Char → List Char × Option (List Char)
  | [], acc => (acc.reverse, none)
  | c :: cs, acc =>
      if c = sep then (acc.reverse, some cs) else splitFirstAux sep cs (c :: acc)

def splitFirst (sep : Char) (l : List Char) : List Char × Option (List Char) :=
  splitFirstAux sep l []

def splitAllAux (sep : Char) : List Char → List Char → List (List Char)
  | [], acc => [acc.reverse]
  | c :: cs, acc =>
      if c = sep then acc.reverse :: splitAllAux sep cs []
      else splitAllAux sep cs (c :: acc)

/-- Split a character list at every occurrence of `sep` (the list-level
`String.split`). -/
def splitAll (sep : Char) (l : List Char) : List (List Char) :=
  splitAllAux sep l []

structure URLModel where
  scheme : String
  host : String
  pathname : String
  query : List (String × String)
deriving DecidableEq

/-- `URLSearchParams` over a raw query string: split on `&`, each
segment at its first `=` (a segment without `=` has value `""`), keys
and values form-decoded; empty segments are dropped. -/
def parseQuery (q : List Char) : List (String × String) :=
  (splitAll '&' q).filterMap fun seg =>
    if seg.isEmpty then none
    else
      some (formDecode (String.mk (splitFirst '=' seg).1),
        formDecode (String.mk ((splitFirst '=' seg).2.getD [])))

/-- `searchParams.get`: the value of the first pair with the given key,
or `null`. -/
def searchGet (q : List (String × String)) (k : String) : Option String :=
  (q.find? fun p => p.1 = k).map fun p => p.2

def isSchemeChar (c : Char) : Bool :=
  c.isAlpha || c.isDigit || c = '+' || c = '-' || c = '.'

/-- The URL parser model: scheme up to the first `:`, then either an
authority form `//host[:port]/path` or an opaque path; the fragment is
cut at the first `#`, the query at the first `?` before it. -/
def parseURL (s : String) : Option URLModel :=
  match splitFirst ':' s.data with
  | (_, none) => none
  | (schemeRaw, some rest) =>
      if !(schemeRaw.headD '0').isAlpha ∨ ¬ schemeRaw.all isSchemeChar then none
      else
        let scheme := jsToLower (String.mk schemeRaw)
        let (noFrag, _) := splitFirst '#' rest
        let (beforeQ, queryTail) := splitFirst '?' noFrag
        let query := parseQuery (queryTail.getD [])
        match beforeQ with
        | '/' :: '/' :: auth =>
            let (authority, path) := splitFirst '/' auth
            let (hostname, _port) := splitFirst ':' authority
            let pathname := match path with
              | none => ""
              | some p => String.mk ('/' :: p)
            some ⟨scheme, String.mk hostname, pathname, query⟩
        | p => some ⟨scheme, "", String.mk p, query⟩

/-! ## The provisioning URI codec -/

/-- The `QRCodeResult` record of `src/types` as `parseOTPAuthURL` fills
it: `issuer` is `undefined` (`none`) when empty, `digits` and `period`
are JavaScript numbers (`none` models `NaN`), `counter` is set only for
`hotp` URIs with a `counter` parameter. -/
structure QRCodeResult where
  type : String
  label : String
  secret : String
  issuer : Option String
  algorithm : String
  digits : Option Int
  period : Option Int
  counter : Option (Option Int)
deriving DecidableEq

/-- JavaScript `parseInt(s, 10)`: skip leading whitespace, read an
optional sign and a maximal digit prefix; no digits give `NaN`
(`none`). -/
def jsParseInt (s : String) : Option Int :=
  let l := s.data.dropWhile isJSSpace
  let (sign, l2) : Int × List Char :=
    match l with
    | '-' :: t => (-1, t)
    | '+' :: t => (1, t)
    | t => (1, t)
  let ds := l2.takeWhile fun c => 48 ≤ c.toNat && c.toNat ≤ 57
  if ds.isEmpty then none
  else some (sign * (ds.foldl (fun a c => a * 10 + (c.toNat - 48)) 0 : Nat))

/-- JavaScript `x || dflt` over an optional string: absent and `""`
both give the default. -/
def jsOrStr (x : Option String) (dflt : String) : String :=
  match x with
  | some s => if s = "" then dflt else s
  | none => dflt

/-- `pathLabel.split(':', 2)`: JavaScript's split with a limit truncates
the result to its first two segments. -/
def splitColon2 (s : String) : List String :=
  ((splitAll ':' s.data).map String.mk).take 2

/-- Lines 154–168 of TOTPService.ts: derive `(issuer, accountName)` from
the decoded label and the raw `issuer` query value (`''` when absent). -/
def labelSplit (pathLabel issuer0 : String) : String × String :=
  if (pathLabel.data.any (· = ':')) ∧ issuer0 = "" then
    let parts := splitColon2 pathLabel
    (parts.getD 0 "", parts.getD 1 "")
  else if (pathLabel.data.any (· = ':')) ∧ issuer0 ≠ "" then
    let parts := splitColon2 pathLabel
    let p1 := parts.getD 1 ""
    (issuer0, if p1 = "" then parts.getD 0 "" else p1)
  else (issuer0, pathLabel)

/-- The record `parseOTPAuthURL` builds once the label is in hand
(TOTPService.ts:169–199): query-driven fields with their defaulting and
the three normalization steps. -/
def buildQRCodeResult (type pathLabel secret : String)
    (query : List (String × String)) : QRCodeResult :=
  let issuer0 := (searchGet query "issuer").getD ""
  let issuer := (labelSplit pathLabel issuer0).1
  let algRaw := jsOrStr ((searchGet query "algorithm").map jsToUpper) "SHA1"
  let digitsRaw := jsParseInt (jsOrStr (searchGet query "digits") "6")
  let periodRaw := jsParseInt (jsOrStr (searchGet query "period") "30")
  { type := type
    label := pathLabel
    secret := secret
    issuer := if issuer = "" then none else some issuer
    algorithm :=
      if algRaw = "SHA1" ∨ algRaw = "SHA256" ∨ algRaw = "SHA512" then algRaw
      else "SHA1"
    digits :=
      if digitsRaw = some 6 ∨ digitsRaw = some 7 ∨ digitsRaw = some 8 then
        digitsRaw
      else some 6
    period :=
      match periodRaw with
      | some p => if p < 1 ∨ 300 < p then some 30 else some p
      | none => none
    counter :=
      if type = "hotp" then
        match searchGet query "counter" with
        | some c => if c = "" then none else some (jsParseInt c)
        | none => none
      else none }

/-- `TOTPService.parseOTPAuthURL` on an already-parsed URL object:
protocol, type, secret and label checks, then the result record. -/
def parseOTPAuthURLCore (u : URLModel) : Option QRCodeResult :=
  if u.scheme ≠ "otpauth" then none
  else
    let type := jsToLower u.host
    if type ≠ "totp" ∧ type ≠ "hotp" then none
    else
      match searchGet u.query "secret" with
      | none => none
      | some secret =>
          if secret = "" then none
          else if ¬ validateSecret secret then none
          else
            match decodeURIComponent (String.mk (u.pathname.data.drop 1)) with
            | none => none
            | some pathLabel => some (buildQRCodeResult type pathLabel secret u.query)

/-- `TOTPService.parseOTPAuthURL` (TOTPService.ts:128–208). `none`
models the rethrown exception: bad URL, wrong protocol, unsupported
type, missing or invalid secret, or undecodable label. The account name
computed by `labelSplit` is, as in the source, dropped: only the issuer
reaches the result record. -/
def parseOTPAuthURL (url : String) : Option QRCodeResult :=
  (parseURL url).bind parseOTPAuthURLCore

/-- JavaScript number-to-string conversion for a natural number
(decimal, no sign, no padding), with structural fuel so that it
evaluates in the kernel. -/
def natToDecAux : Nat → Nat → List Char
  | 0, _ => []
  | fuel + 1, n =>
      if n < 10 then [Nat.digitChar n]
      else natToDecAux fuel (n / 10) ++ [Nat.digitChar (n % 10)]

def natToDec (n : Nat) : String := String.mk (natToDecAux (n + 1) n)

/-- `URLSearchParams.toString()`: `k=v` pairs form-encoded and joined
with `&`. -/
def serializeQuery : List (String × String) → List Char
  | [] => []
  | [(k, v)] => (formEncode k).data ++ '=' :: (formEncode v).data
  | (k, v) :: rest => (formEncode k).data ++ '=' :: ((formEncode v).data ++ '&' :: serializeQuery rest)

/-- `TOTPService.createOTPAuthURL` (TOTPService.ts:274–292): validate
the secret, build the `issuer:accountName` label (no colon when the
issuer is empty), percent-encode it, and serialize the five query
parameters in source order. -/
def createOTPAuthURL (issuer accountName secret : String) (opts : TOTPOptions) :
    Option String :=
  match validateAndCleanSecret secret with
  | none => none
  | some cleanSecret =>
      let label := if issuer ≠ "" then issuer ++ ":" ++ accountName else accountName
      let params := [("secret", cleanSecret), ("issuer", issuer),
                     ("algorithm", jsOrStr opts.algorithm "SHA1"),
                     ("digits", natToDec (jsOrNat opts.digits 6)),
                     ("period", natToDec (jsOrNat opts.period 30))]
      some ("otpauth://totp/" ++ encodeURIComponent label ++ "?" ++
        String.mk (serializeQuery params))

/-- A label component for which the provisioning URI codec can round
trip: ASCII (single-byte percent escapes) and colon-free (the label
reassembles unambiguously). -/
def validLabelPart (s : String) : Bool :=
  s.data.all fun c => c.toNat < 128 && c != ':'

/-! ## RFC 6238 reference data -/

/-- Base32 encoding of the 20-byte ASCII seed `"12345678901234567890"`
(RFC 6238 Appendix B, SHA-1 column). -/
def rfcSeed20 : String := "GEZDGNBVGY3TQOJQGEZDGNBVGY3TQOJQ"

/-- Base32 encoding of the 32-byte extension of the seed (SHA-256). -/
def rfcSeed32 : String :=
  "GEZDGNBVGY3TQOJQGEZDGNBVGY3TQOJQGEZDGNBVGY3TQOJQGEZA"

/-- Base32 encoding of the 64-byte extension of the seed (SHA-512). -/
def rfcSeed64 : String :=
  "GEZDGNBVGY3TQOJQGEZDGNBVGY3TQOJQGEZDGNBVGY3TQOJQGEZDGNBVGY3TQOJQGEZDGNBVGY3TQOJQGEZDGNBVGY3TQOJQGEZDGNA"

/-- The options of the RFC 6238 test vectors: `period = 30`,
`digits = 8`. -/
def rfcOpts (alg : String) : TOTPOptions :=
  { algorithm := some alg, digits := some 8, period := some 30, window := none }

/-- Explicit `period = 30`, `window = 1` (the service defaults). -/
def winOpts : TOTPOptions :=
  { algorithm := none, digits := none, period := some 30, window := some 1 }

end TOTP

namespace TOTP

/-! ## Theorems -/

set_option maxRecDepth 1000000

/-- Every value below 10 renders as a decimal digit character. -/
theorem digitChar_isDigit {m : Nat} (h : m < 10) : (Nat.digitChar m).isDigit = true := by
  interval_cases m <;> decide

/-- A code string always has exactly `digits` characters. -/
theorem formatCode_length (n d : Nat) : (formatCode n d).length = d := by
  simp [formatCode, String.length]

/-- A code string consists of decimal digit characters only. -/
theorem formatCode_isDigit (n d : Nat) :
    (formatCode n d).data.all Char.isDigit = true := by
  simp only [formatCode, List.all_eq_true, List.mem_map, List.mem_range]
  rintro c ⟨i, -, rfl⟩
  exact digitChar_isDigit (Nat.mod_lt _ (by norm_num))

/-- A nonempty match of `/^[A-Z2-7]+=*$/` is a nonempty list. -/
theorem b32Regex_ne_nil {l : List Char} (h : b32Regex l = true) : l ≠ [] := by
  rintro rfl
  simp [b32Regex] at h

/-- The window counters are exactly those at distance at most `w` from
the current counter. -/
theorem mem_totpCounters {counter w k : Nat} :
    k ∈ totpCounters counter w ↔ counter ≤ k + w ∧ k ≤ counter + w := by
  simp only [totpCounters, List.mem_filterMap, List.mem_range]
  constructor
  · rintro ⟨i, hi, hk⟩
    by_cases h : w ≤ counter + i
    · rw [if_pos h] at hk
      injection hk with hk
      omega
    · rw [if_neg h] at hk
      exact absurd hk (by simp)
  · rintro ⟨h1, h2⟩
    refine ⟨k + w - counter, by omega, ?_⟩
    rw [if_pos (by omega)]
    congr 1
    omega

/-- `validateTOTP` over a decodable secret returns true exactly when a
window counter reproduces the supplied code. -/
theorem validateTOTP_true_iff {code secret : String} {opts : TOTPOptions} {t : Nat}
    {cleaned : String} {key : List Nat}
    (hc : validateAndCleanSecret secret = some cleaned)
    (hk : base32Decode cleaned = some key) :
    validateTOTP code secret opts t = true ↔
      ∃ k, timeStepCounter t (jsOrNat opts.period 30) ≤ k + jsOrNat opts.window 1 ∧
        k ≤ timeStepCounter t (jsOrNat opts.period 30) + jsOrNat opts.window 1 ∧
        computeHOTP (mapAlgorithm opts.algorithm) key k (jsOrNat opts.digits 6) = code := by
  unfold validateTOTP validateTOTPBody
  simp only [hc, hk, Option.getD_some, List.any_eq_true, beq_iff_eq]
  constructor
  · rintro ⟨c, hm, he⟩
    have hb := mem_totpCounters.mp hm
    exact ⟨c, hb.1, hb.2, he⟩
  · rintro ⟨c, h1, h2, he⟩
    exact ⟨c, mem_totpCounters.mpr ⟨h1, h2⟩, he⟩

/-- A successful generation is the HOTP code of the current time step. -/
theorem generateTOTP_eq {secret : String} {opts : TOTPOptions} {t : Nat} {s : String}
    (hs : generateTOTP secret opts t = some s) :
    ∃ cleaned key, validateAndCleanSecret secret = some cleaned ∧
      base32Decode cleaned = some key ∧
      s = computeHOTP (mapAlgorithm opts.algorithm) key
        (timeStepCounter t (jsOrNat opts.period 30)) (jsOrNat opts.digits 6) := by
  unfold generateTOTP at hs
  cases hv : validateAndCleanSecret secret with
  | none => simp [hv] at hs
  | some cleaned =>
      cases hb : base32Decode cleaned with
      | none => simp [hv, hb] at hs
      | some key =>
          simp only [hv, hb, Option.some.injEq] at hs
          exact ⟨cleaned, key, rfl, hb, hs.symm⟩

/-- C1: for the RFC 6238 reference seeds (the 20-byte ASCII seed
`"12345678901234567890"` and its 32- and 64-byte extensions, Base32
encoded — the first three conjuncts identify the decoded key bytes),
`generateTOTP` with `period = 30` and `digits = 8` returns, at each of
the six published Unix times and for each of SHA1, SHA256 and SHA512,
exactly the code of RFC 6238 Appendix B. -/
theorem generateTOTP_rfc6238_vectors :
    base32Decode rfcSeed20 = some ("12345678901234567890".data.map Char.toNat) ∧
    base32Decode rfcSeed32 =
      some ("12345678901234567890123456789012".data.map Char.toNat) ∧
    base32Decode rfcSeed64 =
      some (("1234567890123456789012345678901234567890123456789012345678901234").data.map
        Char.toNat) ∧
    generateTOTP rfcSeed20 (rfcOpts "SHA1") 59 = some "94287082" ∧
    generateTOTP rfcSeed20 (rfcOpts "SHA1") 1111111109 = some "07081804" ∧
    generateTOTP rfcSeed20 (rfcOpts "SHA1") 1111111111 = some "14050471" ∧
    generateTOTP rfcSeed20 (rfcOpts "SHA1") 1234567890 = some "89005924" ∧
    generateTOTP rfcSeed20 (rfcOpts "SHA1") 2000000000 = some "69279037" ∧
    generateTOTP rfcSeed20 (rfcOpts "SHA1") 20000000000 = some "65353130" ∧
    generateTOTP rfcSeed32 (rfcOpts "SHA256") 59 = some "46119246" ∧
    generateTOTP rfcSeed32 (rfcOpts "SHA256") 1111111109 = some "68084774" ∧
    generateTOTP rfcSeed32 (rfcOpts "SHA256") 1111111111 = some "67062674" ∧
    generateTOTP rfcSeed32 (rfcOpts "SHA256") 1234567890 = some "91819424" ∧
    generateTOTP rfcSeed32 (rfcOpts "SHA256") 2000000000 = some "90698825" ∧
    generateTOTP rfcSeed32 (rfcOpts "SHA256") 20000000000 = some "77737706" ∧
    generateTOTP rfcSeed64 (rfcOpts "SHA512") 59 = some "90693936" ∧
    generateTOTP rfcSeed64 (rfcOpts "SHA512") 1111111109 = some "25091201" ∧
    generateTOTP rfcSeed64 (rfcOpts "SHA512") 1111111111 = some "99943326" ∧
    generateTOTP rfcSeed64 (rfcOpts "SHA512") 1234567890 = some "93441116" ∧
    generateTOTP rfcSeed64 (rfcOpts "SHA512") 2000000000 = some "38618901" ∧
    generateTOTP rfcSeed64 (rfcOpts "SHA512") 20000000000 = some "47863826" := by
  decide

/-- C2: `validateAndCleanSecret` fails exactly when, after whitespace
removal and uppercasing, the cleaned string is empty, fails
`/^[A-Z2-7]+=*$/`, or keeps fewer than 8 characters after stripping the
trailing `=` padding; `"not valid base32!!!"` and `"AAAA"` are rejected
and `"JBSWY3DPEHPK3PXP"` is accepted. -/
theorem validateAndCleanSecret_rejects_iff :
    (∀ s : String, validateAndCleanSecret s = none ↔
      (cleanSecret s = "" ∨ b32Regex (cleanSecret s).data = false ∨
       (dropTrailingPad (cleanSecret s).data).length < 8)) ∧
    validateAndCleanSecret "not valid base32!!!" = none ∧
    validateAndCleanSecret "AAAA" = none ∧
    (validateAndCleanSecret "JBSWY3DPEHPK3PXP").isSome = true := by
  refine ⟨fun s => ?_, by decide, by decide, by decide⟩
  unfold validateAndCleanSecret
  by_cases he : s = ""
  · subst he
    simp only [if_pos rfl]
    exact iff_of_true rfl (Or.inl (by decide))
  · rw [if_neg he]
    by_cases hr : b32Regex (cleanSecret s).data = true
    · by_cases hl : (dropTrailingPad (cleanSecret s).data).length < 8
      · simp [hr, hl]
      · simp [hr, hl]
        intro h0
        rw [h0] at hr
        exact absurd hr (by decide)
    · simp only [Bool.not_eq_true] at hr
      simp [hr]

/-- C3 (amended): with `period = 30` and `window = 1`, a code generated
at `T` is accepted at every check time `t` with `|t − T| ≤ 30`; at the
boundary distances ±61 the window does not contain `T`'s counter, so
the code is rejected unless it collides with a neighbouring counter's
code — at the RFC seed and `T = 1111111111` both boundary checks do
reject. -/
theorem validateTOTP_window_accept_and_boundary :
    (∀ (secret : String) (opts : TOTPOptions) (T t : Nat) (c : String),
      opts.period = some 30 → opts.window = some 1 →
      T ≤ t + 30 → t ≤ T + 30 →
      generateTOTP secret opts T = some c →
      validateTOTP c secret opts t = true) ∧
    validateTOTP ((generateTOTP rfcSeed20 winOpts 1111111111).getD "") rfcSeed20 winOpts
      (1111111111 + 61) = false ∧
    validateTOTP ((generateTOTP rfcSeed20 winOpts 1111111111).getD "") rfcSeed20 winOpts
      (1111111111 - 61) = false := by
  refine ⟨?_, by decide, by decide⟩
  intro secret opts T t c hp hw hTt htT hgen
  obtain ⟨cleaned, key, hv, hb, rfl⟩ := generateTOTP_eq hgen
  have hp30 : jsOrNat opts.period 30 = 30 := by rw [hp]; rfl
  have hw1 : jsOrNat opts.window 1 = 1 := by rw [hw]; rfl
  rw [validateTOTP_true_iff hv hb]
  refine ⟨timeStepCounter T (jsOrNat opts.period 30), ?_, ?_, rfl⟩
  · rw [hp30, hw1]
    unfold timeStepCounter
    have h := Nat.div_le_div_right (c := 30) htT
    rwa [Nat.add_div_right _ (by norm_num)] at h
  · rw [hp30, hw1]
    unfold timeStepCounter
    have h := Nat.div_le_div_right (c := 30) hTt
    rwa [Nat.add_div_right _ (by norm_num)] at h

/-- Witness for C3 at the RFC seed: the code of `T = 1111111111` is
still accepted at the inclusive boundary `t = T + 30`. -/
theorem validateTOTP_window_accept_witness :
    validateTOTP "050471" rfcSeed20 winOpts 1111111141 = true :=
  validateTOTP_window_accept_and_boundary.1 rfcSeed20 winOpts 1111111111 1111111141
    "050471" rfl rfl (by omega) (by omega) (by decide)

/-- C3 counterexample: the rejection clause is not universal. At the
RFC seed and `T = 4607010` (counter 153567) the generated code
`"468457"` recurs at counter 153569, which the window examined at
`T + 61` contains, so validation succeeds two periods away. -/
theorem validateTOTP_boundary_collision :
    validateTOTP ((generateTOTP rfcSeed20 winOpts 4607010).getD "") rfcSeed20 winOpts
      (4607010 + 61) = true := by
  decide

/-- C8: `validateTOTP` returns true exactly when some counter at
distance at most `window` from the current one reproduces the supplied
code, and returns false — never an exception — when the secret fails
validation/decoding. -/
theorem validateTOTP_boolean_outcome :
    ∀ (code secret : String) (opts : TOTPOptions) (t : Nat),
      (validateAndCleanSecret secret = none → validateTOTP code secret opts t = false) ∧
      (∀ cleaned key, validateAndCleanSecret secret = some cleaned →
        base32Decode cleaned = some key →
        (validateTOTP code secret opts t = true ↔
          ∃ k, timeStepCounter t (jsOrNat opts.period 30) ≤ k + jsOrNat opts.window 1 ∧
            k ≤ timeStepCounter t (jsOrNat opts.period 30) + jsOrNat opts.window 1 ∧
            computeHOTP (mapAlgorithm opts.algorithm) key k (jsOrNat opts.digits 6) = code)) := by
  intro code secret opts t
  constructor
  · intro h
    simp [validateTOTP, validateTOTPBody, h]
  · intro cleaned key hc hk
    exact validateTOTP_true_iff hc hk

/-- Witness for C8 at concrete inputs: the RFC vector code matches
inside the window, and an invalid secret yields `false`. -/
theorem validateTOTP_boolean_outcome_witness :
    validateTOTP "94287082" rfcSeed20 (rfcOpts "SHA1") 59 = true ∧
    validateTOTP "000000" "not valid base32!!!" (rfcOpts "SHA1") 59 = false := by
  constructor
  · exact ((validateTOTP_boolean_outcome "94287082" rfcSeed20 (rfcOpts "SHA1") 59).2
      rfcSeed20 ("12345678901234567890".data.map Char.toNat) (by decide) (by decide)).mpr
      ⟨1, by decide, by decide, by decide⟩
  · exact (validateTOTP_boolean_outcome "000000" "not valid base32!!!"
      (rfcOpts "SHA1") 59).1 (by decide)

/-- C9: a generated code has exactly `digits` characters, all decimal
digits; the truncated value 42 at width 6 renders as `"000042"`. -/
theorem generateTOTP_digit_width :
    (∀ (secret : String) (opts : TOTPOptions) (t d : Nat) (s : String),
      opts.digits = some d → (d = 6 ∨ d = 7 ∨ d = 8) →
      generateTOTP secret opts t = some s →
      s.length = d ∧ s.data.all Char.isDigit = true) ∧
    formatCode 42 6 = "000042" := by
  refine ⟨?_, by decide⟩
  intro secret opts t d s hd hmem hs
  obtain ⟨cleaned, key, -, -, rfl⟩ := generateTOTP_eq hs
  have hde : jsOrNat opts.digits 6 = d := by
    rw [hd]
    have : d ≠ 0 := by rcases hmem with h | h | h <;> omega
    simp [jsOrNat, this]
  rw [hde]
  exact ⟨formatCode_length _ _, formatCode_isDigit _ _⟩

/-- Witness for C9 at the RFC SHA-1 vector: an 8-digit all-decimal
code. -/
theorem generateTOTP_digit_width_witness :
    ("94287082".length = 8 ∧ "94287082".data.all Char.isDigit = true) ∧
    formatCode 42 6 = "000042" :=
  ⟨generateTOTP_digit_width.1 rfcSeed20 (rfcOpts "SHA1") 59 8 "94287082" rfl
    (Or.inr (Or.inr rfl)) (by decide), generateTOTP_digit_width.2⟩

/-- C10: `validateTOTP` is the catch-all wrapper of its body: it always
returns the boolean the body produces, and any internal exception —
in particular a malformed secret — becomes the return value `false`. -/
theorem validateTOTP_never_throws :
    ∀ (code secret : String) (opts : TOTPOptions) (t : Nat),
      validateTOTP code secret opts t = (validateTOTPBody code secret opts t).getD false ∧
      (validateTOTPBody code secret opts t = none →
        validateTOTP code secret opts t = false) ∧
      (validateAndCleanSecret secret = none →
        validateTOTP code secret opts t = false) := by
  intro code secret opts t
  refine ⟨rfl, fun h => ?_, fun h => ?_⟩
  · simp [validateTOTP, h]
  · simp [validateTOTP, validateTOTPBody, h]

/-- Witness for C10: a malformed secret produces `false`, not a
failure. -/
theorem validateTOTP_never_throws_witness :
    validateTOTP "123456" "@@@" { } 0 = false :=
  (validateTOTP_never_throws "123456" "@@@" { } 0).2.2 (by decide)

/-! ### Splitting lemmas -/

theorem splitAllAux_of_not_mem {sep : Char} {l : List Char} (h : ∀ c ∈ l, c ≠ sep)
    (acc : List Char) : splitAllAux sep l acc = [acc.reverse ++ l] := by
  induction l generalizing acc with
  | nil => simp [splitAllAux]
  | cons c cs ih =>
      have hc : c ≠ sep := h c (by simp)
      simp only [splitAllAux, if_neg hc]
      rw [ih fun x hx => h x (by simp [hx])]
      simp

theorem splitAllAux_append {sep : Char} {a : List Char} (h : ∀ c ∈ a, c ≠ sep)
    (b acc : List Char) :
    splitAllAux sep (a ++ sep :: b) acc = (acc.reverse ++ a) :: splitAll sep b := by
  induction a generalizing acc with
  | nil => simp [splitAllAux, splitAll]
  | cons c cs ih =>
      have hc : c ≠ sep := h c (by simp)
      simp only [List.cons_append, splitAllAux, if_neg hc]
      exact (ih (fun x hx => h x (by simp [hx])) (c :: acc)).trans (by simp)

theorem splitAll_of_not_mem {sep : Char} {l : List Char} (h : ∀ c ∈ l, c ≠ sep) :
    splitAll sep l = [l] := by
  rw [splitAll, splitAllAux_of_not_mem h]
  rfl

theorem splitAll_append {sep : Char} {a : List Char} (h : ∀ c ∈ a, c ≠ sep)
    (b : List Char) : splitAll sep (a ++ sep :: b) = a :: splitAll sep b := by
  rw [splitAll, splitAllAux_append h]
  rfl

theorem dropWhile_head_false {α : Type} {p : α → Bool} :
    ∀ {l : List α} {x : α} {xs : List α}, l.dropWhile p = x :: xs → p x = false := by
  intro l
  induction l with
  | nil => intro x xs h; cases h
  | cons c cs ih =>
      intro x xs h
      by_cases hc : p c = true
      · rw [List.dropWhile_cons_of_pos hc] at h
        exact ih h
      · rw [List.dropWhile_cons_of_neg hc] at h
        cases h
        exact Bool.not_eq_true _ |>.mp hc

/-- `splitAll` always starts with the segment before the first
separator. -/
theorem splitAll_head (sep : Char) (l : List Char) :
    ∃ tail, splitAll sep l = l.takeWhile (· != sep) :: tail := by
  cases hd : l.dropWhile (· != sep) with
  | nil =>
      have hl : l.takeWhile (· != sep) = l := by
        conv_rhs => rw [← List.takeWhile_append_dropWhile (p := (· != sep)) (l := l)]
        rw [hd, List.append_nil]
      have hmem : ∀ c ∈ l, c ≠ sep := by
        intro c hc
        have hc2 : c ∈ l.takeWhile (· != sep) := by rw [hl]; exact hc
        have hp : (c != sep) = true := List.mem_takeWhile_imp (p := (· != sep)) hc2
        exact bne_iff_ne.mp hp
      exact ⟨[], by rw [splitAll_of_not_mem hmem, hl]⟩
  | cons x xs =>
      have hx : (x != sep) = false := dropWhile_head_false (p := (· != sep)) hd
      have hxeq : x = sep := by
        have : (x == sep) = true := by
          revert hx
          cases hxx : x == sep <;> simp [bne, hxx]
        exact eq_of_beq this
      have hl : l = l.takeWhile (· != sep) ++ sep :: xs := by
        conv_lhs => rw [← List.takeWhile_append_dropWhile (p := (· != sep)) (l := l)]
        rw [hd, hxeq]
      refine ⟨splitAll sep xs, ?_⟩
      conv_lhs => rw [hl]
      refine splitAll_append (fun c hc => ?_) xs
      have hp : (c != sep) = true := List.mem_takeWhile_imp (p := (· != sep)) hc
      exact bne_iff_ne.mp hp

theorem data_label_append (pre rest : String) :
    (pre ++ ":" ++ rest).data = pre.data ++ ':' :: rest.data := by
  rw [String.data_append (pre ++ ":") rest, String.data_append pre ":"]
  simp

/-- `split(':', 2)` of `pre:rest` with a colon-free `pre`: the first
field is `pre`, the second is `rest` up to its first colon. -/
theorem splitColon2_eq {pre : String} (rest : String)
    (h : pre.data.all (· != ':') = true) :
    splitColon2 (pre ++ ":" ++ rest) =
      [pre, String.mk (rest.data.takeWhile (· != ':'))] := by
  have hpre : ∀ c ∈ pre.data, c ≠ ':' :=
    fun c hc => bne_iff_ne.mp (List.all_eq_true.mp h c hc)
  obtain ⟨tail, htail⟩ := splitAll_head ':' rest.data
  rw [splitColon2, data_label_append, splitAll_append hpre, htail]
  rfl

/-- C6 (amended): when the label contains a colon, the issuer is the
part before the first colon (or the query value when one is present),
but the account name is only the segment *between the first and second
colons* — JavaScript's `split(':', 2)` discards the rest of the label —
and, when an issuer query value is present and the segment after the
colon is empty, the account name falls back to the part before the
colon. -/
theorem parseOTPAuthURL_label_split_amended :
    ∀ (pre rest issuer0 : String), pre.data.all (· != ':') = true →
      (labelSplit (pre ++ ":" ++ rest) "" =
        (pre, String.mk (rest.data.takeWhile (· != ':')))) ∧
      (issuer0 ≠ "" →
        labelSplit (pre ++ ":" ++ rest) issuer0 =
          (issuer0,
            if rest.data.takeWhile (· != ':') = [] then pre
            else String.mk (rest.data.takeWhile (· != ':')))) := by
  intro pre rest issuer0 h
  have hany : ((pre ++ ":" ++ rest).data.any (· = ':')) = true := by
    rw [data_label_append, List.any_append]
    simp
  have hsplit := splitColon2_eq rest h
  constructor
  · rw [labelSplit, if_pos ⟨hany, rfl⟩, hsplit]
    simp only [List.getD, List.get?_cons_succ, List.get?_cons_zero, Option.getD_some]
  · intro hne
    rw [labelSplit, if_neg fun hc => hne hc.2, if_pos ⟨hany, hne⟩, hsplit]
    simp only [List.getD, List.get?_cons_succ, List.get?_cons_zero, Option.getD_some]
    by_cases ht : rest.data.takeWhile (· != ':') = []
    · have hmk : String.mk (rest.data.takeWhile (· != ':')) = "" := by
        rw [ht]
      rw [if_pos hmk, if_pos ht]
    · have hmk : String.mk (rest.data.takeWhile (· != ':')) ≠ "" :=
        fun hc => ht (String.ext_iff.mp hc)
      rw [if_neg hmk, if_neg ht]

/-- Witness for C6 (amended) at a concrete three-part label. -/
theorem parseOTPAuthURL_label_split_witness :
    labelSplit ("Ex" ++ ":" ++ "alice:bob") "" =
      ("Ex", String.mk ("alice:bob".data.takeWhile (· != ':'))) ∧
    labelSplit ("Ex" ++ ":" ++ "alice:bob") "Q" =
      ("Q",
        if "alice:bob".data.takeWhile (· != ':') = [] then "Ex"
        else String.mk ("alice:bob".data.takeWhile (· != ':'))) :=
  ⟨(parseOTPAuthURL_label_split_amended "Ex" "alice:bob" "Q" (by decide)).1,
   (parseOTPAuthURL_label_split_amended "Ex" "alice:bob" "Q" (by decide)).2
     (by decide)⟩

/-- C6 counterexample: for the label `A:B:C` (no issuer parameter) the
source computes account name `"B"`, not the entire remainder `"B:C"`;
with an issuer parameter present the same truncation occurs. The first
conjunct shows a full parse reaching this label and taking its issuer
from the split. -/
theorem parseOTPAuthURL_label_split_counterexample :
    (parseOTPAuthURL "otpauth://totp/A%3AB%3AC?secret=JBSWY3DPEHPK3PXP").map
        (fun r => (r.label, r.issuer)) = some ("A:B:C", some "A") ∧
    labelSplit "A:B:C" "" = ("A", "B") ∧
    labelSplit "A:B:C" "" ≠ ("A", "B:C") ∧
    labelSplit "Ex:a:b" "Q" = ("Q", "a") ∧
    labelSplit "Ex:a:b" "Q" ≠ ("Q", "a:b") := by
  decide

/-! ### Normalization lemmas -/

/-- A successful parse always returns the record
`buildQRCodeResult`. -/
theorem parseOTPAuthURL_eq_build {uri : String} {r : QRCodeResult}
    (h : parseOTPAuthURL uri = some r) :
    ∃ ty lbl sec q, r = buildQRCodeResult ty lbl sec q := by
  unfold parseOTPAuthURL at h
  cases hu : parseURL uri with
  | none => rw [hu] at h; cases h
  | some u =>
      rw [hu, Option.some_bind] at h
      unfold parseOTPAuthURLCore at h
      dsimp only at h
      by_cases h1 : u.scheme ≠ "otpauth"
      · rw [if_pos h1] at h; cases h
      · rw [if_neg h1] at h
        by_cases h2 : jsToLower u.host ≠ "totp" ∧ jsToLower u.host ≠ "hotp"
        · rw [if_pos h2] at h; cases h
        · rw [if_neg h2] at h
          cases hs : searchGet u.query "secret" with
          | none => simp [hs] at h
          | some sec =>
              simp only [hs] at h
              by_cases h3 : sec = ""
              · rw [if_pos h3] at h; cases h
              · rw [if_neg h3] at h
                by_cases h4 : ¬ validateSecret sec = true
                · rw [if_pos h4] at h; cases h
                · rw [if_neg h4] at h
                  cases hl : decodeURIComponent (String.mk (u.pathname.data.drop 1)) with
                  | none =>
                      simp only [hl] at h
                      exact Option.noConfusion h
                  | some lbl =>
                      simp only [hl] at h
                      exact ⟨_, _, _, _, (Option.some.inj h).symm⟩

theorem buildQRCodeResult_digits (ty lbl sec : String) (q : List (String × String)) :
    (buildQRCodeResult ty lbl sec q).digits = some 6 ∨
    (buildQRCodeResult ty lbl sec q).digits = some 7 ∨
    (buildQRCodeResult ty lbl sec q).digits = some 8 := by
  unfold buildQRCodeResult
  by_cases hc : jsParseInt (jsOrStr (searchGet q "digits") "6") = some 6 ∨
      jsParseInt (jsOrStr (searchGet q "digits") "6") = some 7 ∨
      jsParseInt (jsOrStr (searchGet q "digits") "6") = some 8
  · simpa [if_pos hc] using hc
  · simp [if_neg hc]

theorem buildQRCodeResult_algorithm (ty lbl sec : String) (q : List (String × String)) :
    (buildQRCodeResult ty lbl sec q).algorithm = "SHA1" ∨
    (buildQRCodeResult ty lbl sec q).algorithm = "SHA256" ∨
    (buildQRCodeResult ty lbl sec q).algorithm = "SHA512" := by
  unfold buildQRCodeResult
  by_cases hc : jsOrStr ((searchGet q "algorithm").map jsToUpper) "SHA1" = "SHA1" ∨
      jsOrStr ((searchGet q "algorithm").map jsToUpper) "SHA1" = "SHA256" ∨
      jsOrStr ((searchGet q "algorithm").map jsToUpper) "SHA1" = "SHA512"
  · simpa [if_pos hc] using hc
  · simp [if_neg hc]

theorem buildQRCodeResult_period (ty lbl sec : String) (q : List (String × String)) :
    ∀ p : Int, (buildQRCodeResult ty lbl sec q).period = some p →
      1 ≤ p ∧ p ≤ 300 := by
  intro p hp
  unfold buildQRCodeResult at hp
  simp only at hp
  cases hq : jsParseInt (jsOrStr (searchGet q "period") "30") with
  | none => simp [hq] at hp
  | some q0 =>
      simp only [hq] at hp
      by_cases hb : q0 < 1 ∨ 300 < q0
      · rw [if_pos hb] at hp
        cases hp
        omega
      · rw [if_neg hb] at hp
        cases hp
        push_neg at hb
        omega

/-- C5 (amended): every parsed descriptor carries normalized `digits`
(6, 7 or 8) and `algorithm` (SHA1/SHA256/SHA512), and every *numeric*
`period` is normalized into `[1, 300]` — but a non-numeric period query
parameter produces `NaN`, which both comparisons of the range check
leave untouched, so it is not replaced by 30; a malformed `digits`
value still parses, normalized to 6. -/
theorem parseOTPAuthURL_normalization :
    (∀ (uri : String) (r : QRCodeResult), parseOTPAuthURL uri = some r →
      (r.digits = some 6 ∨ r.digits = some 7 ∨ r.digits = some 8) ∧
      (r.algorithm = "SHA1" ∨ r.algorithm = "SHA256" ∨ r.algorithm = "SHA512") ∧
      (∀ p : Int, r.period = some p → 1 ≤ p ∧ p ≤ 300)) ∧
    (parseOTPAuthURL "otpauth://totp/X?secret=JBSWY3DPEHPK3PXP&digits=9").map
        (fun r => r.digits) = some (some 6) := by
  refine ⟨?_, by decide⟩
  intro uri r h
  obtain ⟨ty, lbl, sec, q, rfl⟩ := parseOTPAuthURL_eq_build h
  exact ⟨buildQRCodeResult_digits ty lbl sec q,
    buildQRCodeResult_algorithm ty lbl sec q,
    buildQRCodeResult_period ty lbl sec q⟩

/-- Witness for C5 (amended) at a concrete URI. -/
theorem parseOTPAuthURL_normalization_witness :
    ∃ r : QRCodeResult,
      parseOTPAuthURL "otpauth://totp/X?secret=JBSWY3DPEHPK3PXP" = some r ∧
      (r.digits = some 6 ∨ r.digits = some 7 ∨ r.digits = some 8) ∧
      (r.algorithm = "SHA1" ∨ r.algorithm = "SHA256" ∨ r.algorithm = "SHA512") ∧
      (∀ p : Int, r.period = some p → 1 ≤ p ∧ p ≤ 300) :=
  ⟨{ type := "totp", label := "X", secret := "JBSWY3DPEHPK3PXP", issuer := none,
     algorithm := "SHA1", digits := some 6, period := some 30, counter := none },
   by decide,
   parseOTPAuthURL_normalization.1 "otpauth://totp/X?secret=JBSWY3DPEHPK3PXP"
     _ (by decide)⟩

/-- C5 counterexample: a non-numeric `period` query parameter is *not*
normalized to 30 — it survives as `NaN` in the descriptor. -/
theorem parseOTPAuthURL_nan_period_counterexample :
    (parseOTPAuthURL "otpauth://totp/X?secret=JBSWY3DPEHPK3PXP&period=abc").map
        (fun r => r.period) = some none ∧
    (parseOTPAuthURL "otpauth://totp/X?secret=JBSWY3DPEHPK3PXP&period=abc").map
        (fun r => r.period) ≠ some (some 30) := by
  decide

/-! ### Failure conditions of the URI parser -/

/-- C7: on a parsable URL, `parseOTPAuthURL` fails when the scheme is
not `otpauth`, the host is not `totp`/`hotp`, or the `secret` query
parameter is missing or fails secret validation; when all of these are
in order (and the label percent-decodes, the one remaining failure
source) it succeeds. -/
theorem parseOTPAuthURL_failure_conditions :
    ∀ (uri : String) (u : URLModel), parseURL uri = some u →
      (u.scheme ≠ "otpauth" → parseOTPAuthURL uri = none) ∧
      (jsToLower u.host ≠ "totp" ∧ jsToLower u.host ≠ "hotp" →
        parseOTPAuthURL uri = none) ∧
      (searchGet u.query "secret" = none → parseOTPAuthURL uri = none) ∧
      (∀ s, searchGet u.query "secret" = some s → validateSecret s = false →
        parseOTPAuthURL uri = none) ∧
      (u.scheme = "otpauth" →
        (jsToLower u.host = "totp" ∨ jsToLower u.host = "hotp") →
        ∀ s, searchGet u.query "secret" = some s → validateSecret s = true →
        ∀ lbl, decodeURIComponent (String.mk (u.pathname.data.drop 1)) = some lbl →
        (parseOTPAuthURL uri).isSome = true) := by
  intro uri u hu
  have hbind : parseOTPAuthURL uri = parseOTPAuthURLCore u := by
    rw [parseOTPAuthURL, hu, Option.some_bind]
  refine ⟨fun h1 => ?_, fun h2 => ?_, fun h3 => ?_, fun s hs hv => ?_,
    fun h1 h2 s hs hv lbl hl => ?_⟩
  · rw [hbind]
    unfold parseOTPAuthURLCore
    rw [if_pos h1]
  · rw [hbind]
    unfold parseOTPAuthURLCore
    by_cases h1 : u.scheme ≠ "otpauth"
    · rw [if_pos h1]
    · rw [if_neg h1]
      dsimp only
      rw [if_pos h2]
  · rw [hbind]
    unfold parseOTPAuthURLCore
    by_cases h1 : u.scheme ≠ "otpauth"
    · rw [if_pos h1]
    · rw [if_neg h1]
      dsimp only
      by_cases h2 : jsToLower u.host ≠ "totp" ∧ jsToLower u.host ≠ "hotp"
      · rw [if_pos h2]
      · rw [if_neg h2]
        simp only [h3]
  · rw [hbind]
    unfold parseOTPAuthURLCore
    by_cases h1 : u.scheme ≠ "otpauth"
    · rw [if_pos h1]
    · rw [if_neg h1]
      dsimp only
      by_cases h2 : jsToLower u.host ≠ "totp" ∧ jsToLower u.host ≠ "hotp"
      · rw [if_pos h2]
      · rw [if_neg h2]
        simp only [hs]
        by_cases h0 : s = ""
        · rw [if_pos h0]
        · rw [if_neg h0, if_pos (by simp [hv])]
  · rw [hbind]
    unfold parseOTPAuthURLCore
    rw [if_neg (by simp [h1])]
    dsimp only
    rw [if_neg (by rcases h2 with h | h <;> simp [h])]
    simp only [hs]
    have h0 : s ≠ "" := by
      intro h0
      rw [h0] at hv
      exact absurd hv (by decide)
    rw [if_neg h0, if_neg (by simp [hv])]
    simp only [hl, Option.isSome_some]

/-- Witness for C7 at five concrete URIs: wrong scheme, wrong type,
missing secret, invalid secret, and a fully valid URI. -/
theorem parseOTPAuthURL_failure_conditions_witness :
    parseOTPAuthURL "http://totp/X?secret=JBSWY3DPEHPK3PXP" = none ∧
    parseOTPAuthURL "otpauth://other/X?secret=JBSWY3DPEHPK3PXP" = none ∧
    parseOTPAuthURL "otpauth://totp/X" = none ∧
    parseOTPAuthURL "otpauth://totp/X?secret=AAAA" = none ∧
    (parseOTPAuthURL "otpauth://totp/X?secret=JBSWY3DPEHPK3PXP").isSome = true :=
  ⟨(parseOTPAuthURL_failure_conditions "http://totp/X?secret=JBSWY3DPEHPK3PXP"
      ⟨"http", "totp", "/X", [("secret", "JBSWY3DPEHPK3PXP")]⟩ (by decide)).1 (by decide),
   (parseOTPAuthURL_failure_conditions "otpauth://other/X?secret=JBSWY3DPEHPK3PXP"
      ⟨"otpauth", "other", "/X", [("secret", "JBSWY3DPEHPK3PXP")]⟩ (by decide)).2.1
     (by decide),
   (parseOTPAuthURL_failure_conditions "otpauth://totp/X"
      ⟨"otpauth", "totp", "/X", []⟩ (by decide)).2.2.1 (by decide),
   (parseOTPAuthURL_failure_conditions "otpauth://totp/X?secret=AAAA"
      ⟨"otpauth", "totp", "/X", [("secret", "AAAA")]⟩ (by decide)).2.2.2.1
     "AAAA" (by decide) (by decide),
   (parseOTPAuthURL_failure_conditions "otpauth://totp/X?secret=JBSWY3DPEHPK3PXP"
      ⟨"otpauth", "totp", "/X", [("secret", "JBSWY3DPEHPK3PXP")]⟩ (by decide)).2.2.2.2
     (by decide) (Or.inl (by decide)) "JBSWY3DPEHPK3PXP" (by decide) (by decide)
     "X" (by decide)⟩

/-! ### First-separator lemmas -/

theorem splitFirstAux_of_not_mem {sep : Char} {l : List Char} (h : ∀ c ∈ l, c ≠ sep)
    (acc : List Char) : splitFirstAux sep l acc = (acc.reverse ++ l, none) := by
  induction l generalizing acc with
  | nil => simp [splitFirstAux]
  | cons c cs ih =>
      have hc : c ≠ sep := h c (by simp)
      simp only [splitFirstAux, if_neg hc]
      exact (ih (fun x hx => h x (by simp [hx])) (c :: acc)).trans (by simp)

theorem splitFirstAux_append {sep : Char} {a : List Char} (h : ∀ c ∈ a, c ≠ sep)
    (b acc : List Char) :
    splitFirstAux sep (a ++ sep :: b) acc = (acc.reverse ++ a, some b) := by
  induction a generalizing acc with
  | nil => simp [splitFirstAux]
  | cons c cs ih =>
      have hc : c ≠ sep := h c (by simp)
      simp only [List.cons_append, splitFirstAux, if_neg hc]
      exact (ih (fun x hx => h x (by simp [hx])) (c :: acc)).trans (by simp)

theorem splitFirst_of_not_mem {sep : Char} {l : List Char} (h : ∀ c ∈ l, c ≠ sep) :
    splitFirst sep l = (l, none) := by
  rw [splitFirst, splitFirstAux_of_not_mem h]
  rfl

theorem splitFirst_append {sep : Char} {a : List Char} (h : ∀ c ∈ a, c ≠ sep)
    (b : List Char) : splitFirst sep (a ++ sep :: b) = (a, some b) := by
  rw [splitFirst, splitFirstAux_append h]
  rfl

/-! ### Character classes of the encoders -/

theorem hexVal_hexDigit : ∀ n < 16, hexVal (hexDigit n) = some n := by decide

theorem hexDigit_range :
    ∀ n < 16, (48 ≤ (hexDigit n).toNat ∧ (hexDigit n).toNat ≤ 57) ∨
      (65 ≤ (hexDigit n).toNat ∧ (hexDigit n).toNat ≤ 70) := by decide

/-- The output classes of a `%XX` escape: the percent sign and two
hexadecimal digits. -/
theorem mem_pctByte {b : Nat} {x : Char} (hx : x ∈ pctByte b) :
    x = '%' ∨ (48 ≤ x.toNat ∧ x.toNat ≤ 57) ∨ (65 ≤ x.toNat ∧ x.toNat ≤ 70) := by
  simp only [pctByte, List.mem_cons, List.not_mem_nil, or_false] at hx
  rcases hx with rfl | rfl | rfl
  · exact Or.inl rfl
  · exact Or.inr (hexDigit_range _ (Nat.mod_lt _ (by norm_num)))
  · exact Or.inr (hexDigit_range _ (Nat.mod_lt _ (by norm_num)))

theorem encodeURIChar_ascii {c : Char} (hc : c.toNat < 128) :
    encodeURIChar c = if isURIUnreserved c then [c] else pctByte c.toNat := by
  by_cases h : isURIUnreserved c
  · rw [encodeURIChar, if_pos h, if_pos h]
  · rw [encodeURIChar, if_neg h, if_neg h, utf8Bytes, if_pos hc]
    simp

theorem formEncodeChar_ascii {c : Char} (hc : c.toNat < 128) :
    formEncodeChar c =
      if isFormSafe c then [c] else if c = ' ' then ['+'] else pctByte c.toNat := by
  by_cases h : isFormSafe c
  · rw [formEncodeChar, if_pos h, if_pos h]
  · rw [formEncodeChar, if_neg h, if_neg h]
    by_cases hsp : c = ' '
    · rw [if_pos hsp, if_pos hsp]
    · rw [if_neg hsp, if_neg hsp, utf8Bytes, if_pos hc]
      simp

/-- The output classes of `encodeURIComponent` on ASCII input. -/
theorem mem_encodeURIChar {c x : Char} (hc : c.toNat < 128) (hx : x ∈ encodeURIChar c) :
    isURIUnreserved x = true ∨ x = '%' ∨ (48 ≤ x.toNat ∧ x.toNat ≤ 57) ∨
      (65 ≤ x.toNat ∧ x.toNat ≤ 70) := by
  rw [encodeURIChar_ascii hc] at hx
  by_cases h : isURIUnreserved c
  · rw [if_pos h] at hx
    simp only [List.mem_singleton] at hx
    subst hx
    exact Or.inl h
  · rw [if_neg h] at hx
    exact Or.inr (mem_pctByte hx)

/-- The output classes of the form encoder on ASCII input. -/
theorem mem_formEncodeChar {c x : Char} (hc : c.toNat < 128) (hx : x ∈ formEncodeChar c) :
    isFormSafe x = true ∨ x = '+' ∨ x = '%' ∨ (48 ≤ x.toNat ∧ x.toNat ≤ 57) ∨
      (65 ≤ x.toNat ∧ x.toNat ≤ 70) := by
  rw [formEncodeChar_ascii hc] at hx
  by_cases h : isFormSafe c
  · rw [if_pos h] at hx
    simp only [List.mem_singleton] at hx
    subst hx
    exact Or.inl h
  · rw [if_neg h] at hx
    by_cases hsp : c = ' '
    · rw [if_pos hsp] at hx
      simp only [List.mem_singleton] at hx
      subst hx
      exact Or.inr (Or.inl rfl)
    · rw [if_neg hsp] at hx
      rcases mem_pctByte hx with h1 | h1
      · exact Or.inr (Or.inr (Or.inl h1))
      · exact Or.inr (Or.inr (Or.inr h1))

/-- A character of the URI-encoder output classes differs from any
character outside all of them. -/
theorem uriClass_ne {x : Char}
    (hcl : isURIUnreserved x = true ∨ x = '%' ∨ (48 ≤ x.toNat ∧ x.toNat ≤ 57) ∨
      (65 ≤ x.toNat ∧ x.toNat ≤ 70)) {t : Char}
    (ht : isURIUnreserved t = false) (h2 : t ≠ '%')
    (h3 : t.toNat < 48 ∨ (57 < t.toNat ∧ t.toNat < 65) ∨ 70 < t.toNat) : x ≠ t := by
  rintro rfl
  rcases hcl with h | h | h | h
  · rw [h] at ht
    cases ht
  · exact h2 h
  · omega
  · omega

/-- A character of the form-encoder output classes differs from any
character outside all of them. -/
theorem formClass_ne {x : Char}
    (hcl : isFormSafe x = true ∨ x = '+' ∨ x = '%' ∨ (48 ≤ x.toNat ∧ x.toNat ≤ 57) ∨
      (65 ≤ x.toNat ∧ x.toNat ≤ 70)) {t : Char}
    (ht : isFormSafe t = false) (h1 : t ≠ '+') (h2 : t ≠ '%')
    (h3 : t.toNat < 48 ∨ (57 < t.toNat ∧ t.toNat < 65) ∨ 70 < t.toNat) : x ≠ t := by
  rintro rfl
  rcases hcl with h | h | h | h | h
  · rw [h] at ht
    cases ht
  · exact h1 h
  · exact h2 h
  · omega
  · omega

/-! ### Decoding inverts encoding (ASCII) -/

theorem strictPctDecode_cons_of_ne {c : Char} (hne : c ≠ '%') (l : List Char) :
    strictPctDecode (c :: l) = (strictPctDecode l).map (c :: ·) := by
  rw [strictPctDecode.eq_def]
  simp only [if_neg hne]

theorem strictPctDecode_pct {b : Nat} (hb : b < 128) (l : List Char) :
    strictPctDecode (pctByte b ++ l) = (strictPctDecode l).map (Char.ofNat b :: ·) := by
  show strictPctDecode ('%' :: hexDigit (b / 16 % 16) :: hexDigit (b % 16) :: l) = _
  rw [strictPctDecode, if_pos rfl]
  simp only [hexVal_hexDigit _ (Nat.mod_lt _ (by norm_num))]
  have hv : 16 * (b / 16 % 16) + b % 16 = b := by omega
  rw [hv]

theorem lenientPctDecode_cons_of_ne {c : Char} (hne : c ≠ '%') (l : List Char) :
    lenientPctDecode (c :: l) = c :: lenientPctDecode l := by
  rw [lenientPctDecode.eq_def]
  split
  · rename_i heq
    cases heq
  · rename_i a b rest heq
    injection heq with h1 h2
    exact absurd h1 hne
  · rename_i rest heq
    injection heq with h1 h2
    exact absurd h1 hne
  · rename_i c2 rest hna hnb heq
    injection heq with hh1 hh2
    rw [← hh1, ← hh2]

theorem lenientPctDecode_pct {b : Nat} (hb : b < 128) (l : List Char) :
    lenientPctDecode (pctByte b ++ l) = Char.ofNat b :: lenientPctDecode l := by
  show lenientPctDecode ('%' :: hexDigit (b / 16 % 16) :: hexDigit (b % 16) :: l) = _
  rw [lenientPctDecode.eq_def]
  simp only [hexVal_hexDigit _ (Nat.mod_lt _ (by norm_num))]
  have hv : 16 * (b / 16 % 16) + b % 16 = b := by omega
  rw [hv]

theorem strictPctDecode_encode {l : List Char} (h : ∀ c ∈ l, c.toNat < 128) :
    strictPctDecode (l.flatMap encodeURIChar) = some l := by
  induction l with
  | nil => rfl
  | cons c cs ih =>
      have hc : c.toNat < 128 := h c (by simp)
      have ihr := ih fun x hx => h x (by simp [hx])
      rw [List.flatMap_cons, encodeURIChar_ascii hc]
      by_cases hu : isURIUnreserved c
      · have hne : c ≠ '%' := by
          rintro rfl
          exact absurd hu (by decide)
        rw [if_pos hu, List.singleton_append, strictPctDecode_cons_of_ne hne, ihr]
        rfl
      · rw [if_neg hu, strictPctDecode_pct hc, ihr, Char.ofNat_toNat]
        rfl

theorem hexDigit_ne_plus : ∀ n < 16, hexDigit n ≠ '+' := by decide

theorem pctByte_map_plus (b : Nat) :
    (pctByte b).map (fun c => if c = '+' then ' ' else c) = pctByte b := by
  simp only [pctByte, List.map_cons, List.map_nil]
  rw [if_neg (by decide), if_neg (hexDigit_ne_plus _ (Nat.mod_lt _ (by norm_num))),
    if_neg (hexDigit_ne_plus _ (Nat.mod_lt _ (by norm_num)))]

/-- Form decoding (`+` to space, then percent decoding) inverts the
form encoder on ASCII input. -/
theorem lenientPctDecode_formEncode {l : List Char} (h : ∀ c ∈ l, c.toNat < 128) :
    lenientPctDecode ((l.flatMap formEncodeChar).map
      (fun c => if c = '+' then ' ' else c)) = l := by
  induction l with
  | nil => rfl
  | cons c cs ih =>
      have hc : c.toNat < 128 := h c (by simp)
      have ihr := ih fun x hx => h x (by simp [hx])
      rw [List.flatMap_cons, List.map_append, formEncodeChar_ascii hc]
      by_cases hs : isFormSafe c
      · have hnp : c ≠ '+' := by
          rintro rfl
          exact absurd hs (by decide)
        have hne : c ≠ '%' := by
          rintro rfl
          exact absurd hs (by decide)
        rw [if_pos hs]
        simp only [List.map_cons, List.map_nil, if_neg hnp, List.singleton_append]
        rw [lenientPctDecode_cons_of_ne hne, ihr]
      · by_cases hsp : c = ' '
        · rw [if_neg hs, if_pos hsp]
          simp only [List.map_cons, List.map_nil, if_pos rfl, List.singleton_append]
          rw [lenientPctDecode_cons_of_ne (by decide), ihr, hsp]
          simp
        · rw [if_neg hs, if_neg hsp, pctByte_map_plus,
            lenientPctDecode_pct hc, ihr, Char.ofNat_toNat]

theorem formDecode_formEncode {s : String} (h : ∀ c ∈ s.data, c.toNat < 128) :
    formDecode (formEncode s) = s := by
  rw [String.ext_iff]
  show lenientPctDecode (((s.data.flatMap formEncodeChar)).map _) = s.data
  exact lenientPctDecode_formEncode h

theorem mem_formEncode_data {s : String} (hs : ∀ c ∈ s.data, c.toNat < 128) {x : Char}
    (hx : x ∈ (formEncode s).data) :
    isFormSafe x = true ∨ x = '+' ∨ x = '%' ∨ (48 ≤ x.toNat ∧ x.toNat ≤ 57) ∨
      (65 ≤ x.toNat ∧ x.toNat ≤ 70) := by
  rcases List.mem_flatMap.mp hx with ⟨c, hc, hxc⟩
  exact mem_formEncodeChar (hs c hc) hxc

theorem mem_encodeURI_data {s : String} (hs : ∀ c ∈ s.data, c.toNat < 128) {x : Char}
    (hx : x ∈ (encodeURIComponent s).data) :
    isURIUnreserved x = true ∨ x = '%' ∨ (48 ≤ x.toNat ∧ x.toNat ≤ 57) ∨
      (65 ≤ x.toNat ∧ x.toNat ≤ 70) := by
  rcases List.mem_flatMap.mp hx with ⟨c, hc, hxc⟩
  exact mem_encodeURIChar (hs c hc) hxc

/-! ### `URLSearchParams` round trip -/

/-- One `k=v` segment of an encoded query parses back to the pair. -/
theorem parseQuery_single_seg {k v : String} (hk : ∀ c ∈ k.data, c.toNat < 128)
    (hv : ∀ c ∈ v.data, c.toNat < 128) :
    parseQuery ((formEncode k).data ++ '=' :: (formEncode v).data) = [(k, v)] := by
  have hkeq : ∀ x ∈ (formEncode k).data, x ≠ '=' := fun x hx =>
    formClass_ne (mem_formEncode_data hk hx) (by decide) (by decide) (by decide)
      (by decide)
  have hamp : ∀ x ∈ (formEncode k).data ++ '=' :: (formEncode v).data, x ≠ '&' := by
    intro x hx
    rcases List.mem_append.mp hx with h1 | h1
    · exact formClass_ne (mem_formEncode_data hk h1) (by decide) (by decide) (by decide)
        (by decide)
    · rcases List.mem_cons.mp h1 with rfl | h2
      · decide
      · exact formClass_ne (mem_formEncode_data hv h2) (by decide) (by decide) (by decide)
            (by decide)
  have hempty : ((formEncode k).data ++ '=' :: (formEncode v).data).isEmpty = false := by
    cases hcase : (formEncode k).data <;> simp [hcase]
  rw [parseQuery, splitAll_of_not_mem hamp, List.filterMap_cons]
  simp only [hempty, Bool.false_eq_true, if_false, splitFirst_append hkeq,
    Option.getD_some, List.filterMap_nil]
  rw [show String.mk (formEncode k).data = formEncode k from rfl,
    show String.mk (formEncode v).data = formEncode v from rfl,
    formDecode_formEncode hk, formDecode_formEncode hv]

/-- Parsing inverts query serialization (ASCII keys and values). -/
theorem parseQuery_serializeQuery :
    ∀ ps : List (String × String),
      (∀ kv ∈ ps, (∀ c ∈ kv.1.data, c.toNat < 128) ∧ ∀ c ∈ kv.2.data, c.toNat < 128) →
      parseQuery (serializeQuery ps) = ps := by
  intro ps
  induction ps with
  | nil => intro _; rfl
  | cons kv rest ih =>
      rcases kv with ⟨k, v⟩
      intro h
      have hk : ∀ c ∈ k.data, c.toNat < 128 := (h (k, v) (by simp)).1
      have hv : ∀ c ∈ v.data, c.toNat < 128 := (h (k, v) (by simp)).2
      cases rest with
      | nil => exact parseQuery_single_seg hk hv
      | cons kv2 rest2 =>
          have hkeq : ∀ x ∈ (formEncode k).data, x ≠ '=' := fun x hx =>
            formClass_ne (mem_formEncode_data hk hx) (by decide) (by decide) (by decide)
              (by decide)
          have hamp2 : ∀ x ∈ (formEncode k).data ++ '=' :: (formEncode v).data,
              x ≠ '&' := by
            intro x hx
            rcases List.mem_append.mp hx with h1 | h1
            · exact formClass_ne (mem_formEncode_data hk h1) (by decide) (by decide)
                (by decide) (by decide)
            · rcases List.mem_cons.mp h1 with rfl | h2
              · decide
              · exact formClass_ne (mem_formEncode_data hv h2) (by decide) (by decide)
                    (by decide) (by decide)
          have hempty : ((formEncode k).data ++ '=' :: (formEncode v).data).isEmpty =
              false := by
            cases hcase : (formEncode k).data <;> simp [hcase]
          show parseQuery ((formEncode k).data ++
            '=' :: ((formEncode v).data ++ '&' :: serializeQuery (kv2 :: rest2))) = _
          have hassoc : (formEncode k).data ++
              '=' :: ((formEncode v).data ++ '&' :: serializeQuery (kv2 :: rest2)) =
              ((formEncode k).data ++ '=' :: (formEncode v).data) ++
                '&' :: serializeQuery (kv2 :: rest2) := by
            simp
          rw [parseQuery, hassoc, splitAll_append hamp2, List.filterMap_cons]
          simp only [hempty, Bool.false_eq_true, if_false, splitFirst_append hkeq,
            Option.getD_some]
          rw [show String.mk (formEncode k).data = formEncode k from rfl,
            show String.mk (formEncode v).data = formEncode v from rfl,
            formDecode_formEncode hk, formDecode_formEncode hv]
          have htail : (splitAll '&' (serializeQuery (kv2 :: rest2))).filterMap
              (fun seg =>
                if seg.isEmpty then none
                else
                  some (formDecode (String.mk (splitFirst '=' seg).1),
                    formDecode (String.mk ((splitFirst '=' seg).2.getD [])))) =
              parseQuery (serializeQuery (kv2 :: rest2)) := rfl
          rw [htail, ih fun p hp => h p (by simp [hp])]

/-! ### The URL parser on a built provisioning URI -/

/-- `parseURL` on `otpauth://totp/<E>?<QS>` for an encoded label `E`
(free of `#` and `?`) and query string `QS` (free of `#`). -/
theorem parseURL_otpauth_shape {E QS : List Char}
    (hE : ∀ c ∈ E, c ≠ '#' ∧ c ≠ '?') (hQS : ∀ c ∈ QS, c ≠ '#') :
    parseURL (String.mk ("otpauth://totp/".data ++ (E ++ '?' :: QS))) =
      some ⟨"otpauth", "totp", String.mk ('/' :: E), parseQuery QS⟩ := by
  have hmk : (String.mk ("otpauth://totp/".data ++ (E ++ '?' :: QS))).data =
      "otpauth".data ++ ':' :: ("//totp/".data ++ (E ++ '?' :: QS)) := by
    show "otpauth://totp/".data ++ (E ++ '?' :: QS) = _
    have h0 : "otpauth://totp/".data = "otpauth".data ++ ':' :: "//totp/".data := by
      decide
    rw [h0]
    simp
  have hcolon : ∀ c ∈ "otpauth".data, c ≠ ':' := by decide
  have hpre1 : ∀ x ∈ "//totp/".data, x ≠ '#' := by decide
  have hpre2 : ∀ x ∈ "//totp/".data, x ≠ '?' := by decide
  have hhash : ∀ c ∈ "//totp/".data ++ (E ++ '?' :: QS), c ≠ '#' := by
    intro c hc
    rcases List.mem_append.mp hc with h1 | h1
    · exact hpre1 c h1
    · rcases List.mem_append.mp h1 with h2 | h2
      · exact (hE c h2).1
      · rcases List.mem_cons.mp h2 with rfl | h3
        · decide
        · exact hQS c h3
  have hqmark : ∀ c ∈ "//totp/".data ++ E, c ≠ '?' := by
    intro c hc
    rcases List.mem_append.mp hc with h1 | h1
    · exact hpre2 c h1
    · exact (hE c h1).2
  rw [parseURL, hmk, splitFirst_append hcolon]
  dsimp only
  rw [if_neg (by decide)]
  rw [splitFirst_of_not_mem hhash]
  dsimp only
  have hR : "//totp/".data ++ (E ++ '?' :: QS) = ("//totp/".data ++ E) ++ '?' :: QS := by
    simp
  rw [hR, splitFirst_append hqmark]
  rfl

/-! ### ASCII facts for the round trip -/

/-- A string that passes the Base32 test is ASCII. -/
theorem b32Regex_ascii {l : List Char} (h : b32Regex l = true) :
    ∀ c ∈ l, c.toNat < 128 := by
  intro c hc
  rw [b32Regex, Bool.and_eq_true] at h
  have hsplit := List.takeWhile_append_dropWhile (p := isB32Char) (l := l)
  rw [← hsplit] at hc
  rcases List.mem_append.mp hc with h1 | h1
  · have hb := List.mem_takeWhile_imp (p := isB32Char) h1
    rw [isB32Char, Bool.or_eq_true, Bool.and_eq_true, Bool.and_eq_true] at hb
    rcases hb with ⟨hb1, hb2⟩ | ⟨hb1, hb2⟩
    · have := of_decide_eq_true hb2
      omega
    · have := of_decide_eq_true hb2
      omega
  · have hb := List.all_eq_true.mp h.2 c h1
    have : c = '=' := by
      have := of_decide_eq_true hb
      exact this
    rw [this]
    decide

/-- Unfolding of a successful secret validation. -/
theorem validateAndCleanSecret_some {secret cleaned : String}
    (h : validateAndCleanSecret secret = some cleaned) :
    cleaned = cleanSecret secret ∧ b32Regex (cleanSecret secret).data = true := by
  unfold validateAndCleanSecret at h
  by_cases h0 : secret = ""
  · rw [if_pos h0] at h
    cases h
  · rw [if_neg h0] at h
    dsimp only at h
    by_cases h1 : b32Regex (cleanSecret secret).data = true
    · rw [h1] at h
      simp only [Bool.not_true, Bool.false_eq_true, if_false] at h
      by_cases h2 : (dropTrailingPad (cleanSecret secret).data).length < 8
      · rw [if_pos h2] at h
        cases h
      · rw [if_neg h2] at h
        exact ⟨(Option.some.inj h).symm, h1⟩
    · have h1f : b32Regex (cleanSecret secret).data = false := by
        revert h1
        cases b32Regex (cleanSecret secret).data <;> simp
      rw [h1f] at h
      simp only [Bool.not_false, if_true] at h
      cases h

/-- Decimal renderings used by the codec, for all periods in range:
parseable back, form-safe, ASCII, nonempty. -/
theorem natToDec_facts :
    ∀ p < 301, jsParseInt (natToDec p) = some (Int.ofNat p) ∧
      formEncode (natToDec p) = natToDec p ∧
      (∀ c ∈ (natToDec p).data, c.toNat < 128) ∧ natToDec p ≠ "" := by
  decide

theorem searchGet_cons_eq (k v : String) (rest : List (String × String)) :
    searchGet ((k, v) :: rest) k = some v := by
  simp [searchGet, List.find?_cons]

theorem searchGet_cons_ne {k k2 : String} (h : ¬ k2 = k) (v : String)
    (rest : List (String × String)) :
    searchGet ((k2, v) :: rest) k = searchGet rest k := by
  simp [searchGet, List.find?_cons, h]

/-- The characters of a serialized query: separators or form-encoder
output. -/
theorem mem_serializeQuery {ps : List (String × String)}
    (h : ∀ kv ∈ ps, (∀ c ∈ kv.1.data, c.toNat < 128) ∧ ∀ c ∈ kv.2.data, c.toNat < 128)
    {x : Char} (hx : x ∈ serializeQuery ps) :
    x = '=' ∨ x = '&' ∨ isFormSafe x = true ∨ x = '+' ∨ x = '%' ∨
      (48 ≤ x.toNat ∧ x.toNat ≤ 57) ∨ (65 ≤ x.toNat ∧ x.toNat ≤ 70) := by
  induction ps with
  | nil => cases hx
  | cons kv rest ih =>
      rcases kv with ⟨k, v⟩
      have hk : ∀ c ∈ k.data, c.toNat < 128 := (h (k, v) (by simp)).1
      have hv : ∀ c ∈ v.data, c.toNat < 128 := (h (k, v) (by simp)).2
      cases rest with
      | nil =>
          rcases List.mem_append.mp hx with h1 | h1
          · exact Or.inr (Or.inr (mem_formEncode_data hk h1))
          · rcases List.mem_cons.mp h1 with rfl | h2
            · exact Or.inl rfl
            · exact Or.inr (Or.inr (mem_formEncode_data hv h2))
      | cons kv2 rest2 =>
          rcases List.mem_append.mp hx with h1 | h1
          · exact Or.inr (Or.inr (mem_formEncode_data hk h1))
          · rcases List.mem_cons.mp h1 with rfl | h2
            · exact Or.inl rfl
            · rcases List.mem_append.mp h2 with h3 | h3
              · exact Or.inr (Or.inr (mem_formEncode_data hv h3))
              · rcases List.mem_cons.mp h3 with rfl | h4
                · exact Or.inr (Or.inl rfl)
                · exact ih (fun p hp => h p (by simp [hp])) h4

/-- C4: building a provisioning URI from a clean secret, colon-free
ASCII issuer and account name, a supported algorithm, digits in
`{6, 7, 8}` and a period in `[1, 300]`, then parsing it back, returns a
descriptor with identical secret, algorithm, digits and period, the
issuer, and a label from which issuer and account name reconstruct
(`labelSplit` recovers exactly the pair). -/
theorem provisioningURI_roundTrip :
    ∀ (issuer accountName secret alg : String) (d p : Nat) (uri : String),
      validLabelPart issuer = true → issuer ≠ "" →
      validLabelPart accountName = true → accountName ≠ "" →
      validateAndCleanSecret secret = some secret →
      (alg = "SHA1" ∨ alg = "SHA256" ∨ alg = "SHA512") →
      (d = 6 ∨ d = 7 ∨ d = 8) → 1 ≤ p → p ≤ 300 →
      createOTPAuthURL issuer accountName secret
        { algorithm := some alg, digits := some d, period := some p, window := none } =
          some uri →
      ∃ r, parseOTPAuthURL uri = some r ∧
        r.type = "totp" ∧ r.secret = secret ∧ r.algorithm = alg ∧
        r.digits = some (d : Int) ∧ r.period = some (p : Int) ∧
        r.issuer = some issuer ∧ r.label = issuer ++ ":" ++ accountName ∧
        labelSplit r.label issuer = (issuer, accountName) := by
  intro issuer accountName secret alg d p uri hvi hine hva hane hsec halg hd hp1 hp2 hcr
  have halg_ne : alg ≠ "" := by rcases halg with rfl | rfl | rfl <;> decide
  have hd_ne : d ≠ 0 := by rcases hd with rfl | rfl | rfl <;> decide
  -- identify the built string
  unfold createOTPAuthURL at hcr
  simp only [hsec] at hcr
  rw [if_pos hine] at hcr
  rw [show jsOrStr (some alg) "SHA1" = alg from by simp [jsOrStr, halg_ne]] at hcr
  rw [show jsOrNat (some d) 6 = d from by simp [jsOrNat, hd_ne]] at hcr
  rw [show jsOrNat (some p) 30 = p from by
    show (if p = 0 then 30 else p) = p
    rw [if_neg (by omega)]] at hcr
  have huri := Option.some.inj hcr
  subst huri
  -- abbreviations
  set label := issuer ++ ":" ++ accountName with hlabel
  set params : List (String × String) :=
    [("secret", secret), ("issuer", issuer), ("algorithm", alg),
     ("digits", natToDec d), ("period", natToDec p)] with hparams_def
  -- ascii facts
  obtain ⟨hcleq, hb32⟩ := validateAndCleanSecret_some hsec
  have hclean : cleanSecret secret = secret := hcleq.symm
  rw [hclean] at hb32
  have hsecret_ascii : ∀ c ∈ secret.data, c.toNat < 128 := b32Regex_ascii hb32
  have hiss_ascii : ∀ c ∈ issuer.data, c.toNat < 128 := by
    intro c hc
    have := List.all_eq_true.mp hvi c hc
    rw [Bool.and_eq_true] at this
    exact of_decide_eq_true this.1
  have hiss_nc : issuer.data.all (· != ':') = true := by
    rw [List.all_eq_true]
    intro c hc
    have := List.all_eq_true.mp hvi c hc
    rw [Bool.and_eq_true] at this
    exact this.2
  have hacc_ascii : ∀ c ∈ accountName.data, c.toNat < 128 := by
    intro c hc
    have := List.all_eq_true.mp hva c hc
    rw [Bool.and_eq_true] at this
    exact of_decide_eq_true this.1
  have hacc_nc : ∀ c ∈ accountName.data, (c != ':') = true := by
    intro c hc
    have := List.all_eq_true.mp hva c hc
    rw [Bool.and_eq_true] at this
    exact this.2
  have hlabel_ascii : ∀ c ∈ label.data, c.toNat < 128 := by
    rw [hlabel, data_label_append]
    intro c hc
    rcases List.mem_append.mp hc with h1 | h1
    · exact hiss_ascii c h1
    · rcases List.mem_cons.mp h1 with rfl | h2
      · decide
      · exact hacc_ascii c h2
  have halg_ascii : ∀ c ∈ alg.data, c.toNat < 128 := by
    rcases halg with rfl | rfl | rfl <;> decide
  have hdfacts := natToDec_facts d (by omega)
  have hpfacts := natToDec_facts p (by omega)
  have hparams_ascii : ∀ kv ∈ params,
      (∀ c ∈ kv.1.data, c.toNat < 128) ∧ ∀ c ∈ kv.2.data, c.toNat < 128 := by
    intro kv hkv
    rw [hparams_def] at hkv
    simp only [List.mem_cons, List.not_mem_nil, or_false] at hkv
    rcases hkv with rfl | rfl | rfl | rfl | rfl
    · exact ⟨(by decide : ∀ c ∈ ("secret" : String).data, c.toNat < 128), hsecret_ascii⟩
    · exact ⟨(by decide : ∀ c ∈ ("issuer" : String).data, c.toNat < 128), hiss_ascii⟩
    · exact ⟨(by decide : ∀ c ∈ ("algorithm" : String).data, c.toNat < 128), halg_ascii⟩
    · exact ⟨(by decide : ∀ c ∈ ("digits" : String).data, c.toNat < 128), hdfacts.2.2.1⟩
    · exact ⟨(by decide : ∀ c ∈ ("period" : String).data, c.toNat < 128), hpfacts.2.2.1⟩
  -- the encoded label and serialized query
  set E := (encodeURIComponent label).data with hE_def
  set QS := serializeQuery params with hQS_def
  have hEprops : ∀ c ∈ E, c ≠ '#' ∧ c ≠ '?' := by
    intro c hc
    have hcl := mem_encodeURI_data hlabel_ascii hc
    exact ⟨uriClass_ne hcl (by decide) (by decide) (by decide),
      uriClass_ne hcl (by decide) (by decide) (by decide)⟩
  have hQShash : ∀ c ∈ QS, c ≠ '#' := by
    intro c hc
    rcases mem_serializeQuery hparams_ascii hc with rfl | rfl | hcl | hcl | hcl | hcl | hcl
    · decide
    · decide
    · exact formClass_ne (Or.inl hcl) (by decide) (by decide) (by decide) (by decide)
    · exact formClass_ne (Or.inr (Or.inl hcl)) (by decide) (by decide) (by decide)
        (by decide)
    · exact formClass_ne (Or.inr (Or.inr (Or.inl hcl))) (by decide) (by decide)
        (by decide) (by decide)
    · exact formClass_ne (Or.inr (Or.inr (Or.inr (Or.inl hcl)))) (by decide) (by decide)
        (by decide) (by decide)
    · exact formClass_ne (Or.inr (Or.inr (Or.inr (Or.inr hcl)))) (by decide) (by decide)
        (by decide) (by decide)
  -- the built string in the shape of the URL lemma
  have huri_eq : ("otpauth://totp/" ++ encodeURIComponent label ++ "?" ++ String.mk QS) =
      String.mk ("otpauth://totp/".data ++ (E ++ '?' :: QS)) := by
    rw [String.ext_iff]
    simp [String.data_append, hE_def]
  -- parse
  have hparse : parseOTPAuthURL
      ("otpauth://totp/" ++ encodeURIComponent label ++ "?" ++ String.mk QS) =
      parseOTPAuthURLCore ⟨"otpauth", "totp", String.mk ('/' :: E), params⟩ := by
    rw [huri_eq, parseOTPAuthURL, parseURL_otpauth_shape hEprops hQShash,
      Option.some_bind, hQS_def, parseQuery_serializeQuery params hparams_ascii]
  -- the secret is nonempty and valid
  have hsec_ne : secret ≠ "" := by
    intro h0
    have := b32Regex_ne_nil hb32
    rw [h0] at this
    exact this rfl
  have hsec_val : validateSecret secret = true := by
    unfold validateSecret
    rw [hsec]
    have hdne : secret.data ≠ [] := b32Regex_ne_nil hb32
    have hlen : secret.length > 0 := by
      rw [show secret.length = secret.data.length from rfl]
      exact List.length_pos.mpr hdne
    exact decide_eq_true hlen
  -- the label decodes back
  have hdec : decodeURIComponent (String.mk ((String.mk ('/' :: E)).data.drop 1)) =
      some label := by
    show (strictPctDecode (String.mk E).data).map String.mk = some label
    rw [show (String.mk E).data = label.data.flatMap encodeURIChar from rfl,
      strictPctDecode_encode hlabel_ascii]
    rfl
  -- evaluate the parser core
  have hcore : parseOTPAuthURLCore ⟨"otpauth", "totp", String.mk ('/' :: E), params⟩ =
      some (buildQRCodeResult "totp" label secret params) := by
    unfold parseOTPAuthURLCore
    dsimp only
    rw [if_neg (show ¬ ("otpauth" : String) ≠ "otpauth" by decide)]
    rw [if_neg (by decide)]
    simp only [show searchGet params "secret" = some secret from searchGet_cons_eq _ _ _]
    rw [if_neg hsec_ne, if_neg (not_not_intro hsec_val)]
    simp only [hdec]
    rfl
  -- the label splits back into issuer and account name
  have hsplit2 := splitColon2_eq accountName hiss_nc
  have hacc_take : accountName.data.takeWhile (· != ':') = accountName.data :=
    List.takeWhile_eq_self_iff.mpr hacc_nc
  have hlsplit : labelSplit label issuer = (issuer, accountName) := by
    have hany : (label.data.any (· = ':')) = true := by
      rw [hlabel, data_label_append, List.any_append]
      simp
    rw [labelSplit, if_neg fun hc => hine hc.2, if_pos ⟨hany, hine⟩, hlabel, hsplit2]
    simp only [List.getD, List.get?_cons_succ, List.get?_cons_zero, Option.getD_some]
    rw [hacc_take]
    have hmk_acc : String.mk accountName.data = accountName := rfl
    rw [hmk_acc, if_neg hane]
  -- the result record
  refine ⟨buildQRCodeResult "totp" label secret params, by rw [hparse, hcore], ?_⟩
  unfold buildQRCodeResult
  dsimp only
  rw [show searchGet params "issuer" = some issuer from by
    rw [hparams_def, searchGet_cons_ne (by decide), searchGet_cons_eq]]
  rw [show searchGet params "algorithm" = some alg from by
    rw [hparams_def, searchGet_cons_ne (by decide), searchGet_cons_ne (by decide),
      searchGet_cons_eq]]
  rw [show searchGet params "digits" = some (natToDec d) from by
    rw [hparams_def, searchGet_cons_ne (by decide), searchGet_cons_ne (by decide),
      searchGet_cons_ne (by decide), searchGet_cons_eq]]
  rw [show searchGet params "period" = some (natToDec p) from by
    rw [hparams_def, searchGet_cons_ne (by decide), searchGet_cons_ne (by decide),
      searchGet_cons_ne (by decide), searchGet_cons_ne (by decide), searchGet_cons_eq]]
  simp only [Option.getD_some, Option.map_some']
  rw [hlsplit]
  dsimp only
  have hupper : jsToUpper alg = alg := by rcases halg with rfl | rfl | rfl <;> decide
  rw [hupper, show jsOrStr (some alg) "SHA1" = alg from by simp [jsOrStr, halg_ne]]
  rw [show jsOrStr (some (natToDec d)) "6" = natToDec d from by
    simp [jsOrStr, hdfacts.2.2.2]]
  rw [show jsOrStr (some (natToDec p)) "30" = natToDec p from by
    simp [jsOrStr, hpfacts.2.2.2]]
  rw [hdfacts.1, hpfacts.1]
  refine ⟨trivial, trivial, ?_, ?_, ?_, ?_, trivial, rfl⟩
  · rw [if_pos halg]
  · rcases hd with rfl | rfl | rfl <;> norm_num
  · show (if (Int.ofNat p) < 1 ∨ 300 < (Int.ofNat p) then some 30 else some (Int.ofNat p)) =
      some (p : Int)
    have hco : Int.ofNat p = (p : Int) := rfl
    rw [hco, if_neg (by omega)]
  · rw [if_neg hine]

/-- Witness for C4 at the repository's own test fixture
(`TestApp` / `user@example.com` / `JBSWY3DPEHPK3PXP`). -/
theorem provisioningURI_roundTrip_witness :
    ∃ r, parseOTPAuthURL
        "otpauth://totp/TestApp%3Auser%40example.com?secret=JBSWY3DPEHPK3PXP&issuer=TestApp&algorithm=SHA1&digits=6&period=30" =
          some r ∧
      r.type = "totp" ∧ r.secret = "JBSWY3DPEHPK3PXP" ∧ r.algorithm = "SHA1" ∧
      r.digits = some (6 : Int) ∧ r.period = some (30 : Int) ∧
      r.issuer = some "TestApp" ∧ r.label = "TestApp" ++ ":" ++ "user@example.com" ∧
      labelSplit r.label "TestApp" = ("TestApp", "user@example.com") :=
  provisioningURI_roundTrip "TestApp" "user@example.com" "JBSWY3DPEHPK3PXP" "SHA1" 6 30 _
    (by decide) (by decide) (by decide) (by decide) (by decide) (Or.inl rfl)
    (Or.inl rfl) (by decide) (by decide) (by decide)

end TOTP
